import Mathlib

/-!
# Chat app: relay (`server/socket/socketHandler.js`) and call orchestrator
(`client/src/context/CallContext.jsx`)

A shallow embedding of the socket relay and of the client call context.
The two module-level `Map`s of the relay, the sockets and the touched fields
of the `User` collection form the relay state; every `socket.on` handler is a
function from a state and the event data to a new state and the list of
emitted events, in emission order.
-/

namespace ChatApp

/-! ## JavaScript values used as identifiers -/

/-- The identifier-like values the handlers receive: an absent field
(`undefined`), `null`, or a string. -/
inductive JsVal where
  | undefined
  | null
  | str (s : String)
  deriving DecidableEq, Repr

/-- JavaScript truthiness, as used by `if (socket.userId)`. -/
def JsVal.truthy : JsVal → Bool
  | .str s => decide (s ≠ "")
  | _ => false

/-- The text a value contributes inside a template literal. -/
def JsVal.template : JsVal → String
  | .undefined => "undefined"
  | .null => "null"
  | .str s => s

/-- Opaque signalling data (offer, answer, candidate). -/
abbrev Signal := String

/-! ## `Map` with string keys, in insertion order -/

/-- The entries of a JavaScript `Map` whose keys are strings, in insertion order. -/
abbrev JsMap (α : Type) := List (String × α)

/-- Lookup by a string key. -/
def JsMap.getStr {α : Type} : JsMap α → String → Option α
  | [], _ => none
  | (k', v) :: rest, k => if k' = k then some v else JsMap.getStr rest k

/-- The entry is `Map.prototype.set`: an existing key keeps its place and gets
the new value, a new key is appended. -/
def JsMap.set {α : Type} : JsMap α → String → α → JsMap α
  | [], k, v => [(k, v)]
  | (k', v') :: rest, k, v =>
      if k' = k then (k, v) :: rest else (k', v') :: JsMap.set rest k v

/-- Removal by a string key. -/
def JsMap.deleteStr {α : Type} (m : JsMap α) (k : String) : JsMap α :=
  m.filter (fun e => decide (e.1 ≠ k))

/-- The entry is `Map.prototype.get` for an arbitrary value: only a string can
equal a key. -/
def JsMap.get {α : Type} (m : JsMap α) : JsVal → Option α
  | .str k => JsMap.getStr m k
  | _ => none

/-- The entry is `Map.prototype.has`. -/
def JsMap.has {α : Type} (m : JsMap α) (k : JsVal) : Bool :=
  (JsMap.get m k).isSome

/-- The entry is `Map.prototype.delete` for an arbitrary value. -/
def JsMap.delete {α : Type} (m : JsMap α) : JsVal → JsMap α
  | .str k => JsMap.deleteStr m k
  | _ => m

/-- The keys of a map, in insertion order. -/
def JsMap.keys {α : Type} (m : JsMap α) : List String := m.map Prod.fst

/-! ## Relay state -/

/-- A value of `activeCalls`: the two object shapes the `call user` handler
stores. -/
inductive CallSession where
  | group (chatId : JsVal) (initiator : JsVal) (participants : List JsVal)
      (isVideo : Option Bool) (startTime : Nat)
  | direct (caller : JsVal) (receiver : JsVal) (isVideo : Option Bool) (startTime : Nat)
  deriving DecidableEq, Repr

/-- Field `call.caller` (absent on a group session). -/
def CallSession.caller : CallSession → JsVal
  | .direct c _ _ _ => c
  | .group _ _ _ _ _ => .undefined

/-- Field `call.receiver` (absent on a group session). -/
def CallSession.receiver : CallSession → JsVal
  | .direct _ r _ _ => r
  | .group _ _ _ _ _ => .undefined

/-- Field `call.isGroup`. -/
def CallSession.isGroup : CallSession → Bool
  | .direct _ _ _ _ => false
  | .group _ _ _ _ _ => true

/-- Field `call.participants` (absent on a direct session). -/
def CallSession.participants : CallSession → Option (List JsVal)
  | .direct _ _ _ _ => none
  | .group _ _ ps _ _ => some ps

/-- Field `call.isVideo`. -/
def CallSession.isVideo : CallSession → Option Bool
  | .direct _ _ v _ => v
  | .group _ _ _ v _ => v

/-- A value of `typingUsers`. -/
structure TypingEntry where
  chatId : JsVal
  userId : JsVal
  userName : JsVal
  timestamp : Nat
  deriving DecidableEq, Repr

/-- One open connection: `socket.id`, `socket.userId` and the rooms joined. -/
structure Socket where
  id : String
  userId : JsVal
  rooms : List JsVal
  deriving DecidableEq, Repr

/-- The fields of a `User` document that the relay writes. -/
structure Presence where
  isOnline : Bool
  socketId : Option String
  lastSeen : Nat
  deriving DecidableEq, Repr

/-- The relay: the two module-level maps, the open sockets and the presence
fields of the `User` collection. -/
structure Relay where
  activeCalls : JsMap CallSession
  typingUsers : JsMap TypingEntry
  sockets : List Socket
  users : JsMap Presence
  deriving DecidableEq, Repr

/-- A freshly started relay over a given `User` collection. -/
def Relay.init (users : JsMap Presence) : Relay :=
  { activeCalls := [], typingUsers := [], sockets := [], users := users }

/-! ## Emitted events -/

/-- Where an emission is addressed: `io.to(room)`, `socket.to(room)` (the room
without the emitting socket) or `socket.broadcast` (every other socket). -/
inductive Target where
  | toRoom (room : JsVal)
  | socketTo (sender : String) (room : JsVal)
  | broadcast (sender : String)
  deriving DecidableEq, Repr

/-- The message object of `new message`: the chat reference
(`messageData.chat._id || messageData.chat`), the sender id and the rest. -/
structure Message where
  chat : JsVal
  sender : JsVal
  body : String
  deriving DecidableEq, Repr

/-- An emitted event with its payload fields. -/
inductive Payload where
  | userOnline (userId : JsVal)
  | userOffline (userId : JsVal)
  | messageReceived (messageData : Message)
  | typing (chatId userId userName : JsVal)
  | stopTyping (chatId userId : JsVal)
  | messagesRead (chatId userId : JsVal) (messageIds : String)
  | reactionUpdate (messageId : JsVal) (reaction : String)
  | messageRemoved (messageId : JsVal)
  | messageUpdated (message : String)
  | incomingCall (signal : Signal) (sender callerName callerAvatar : JsVal)
      (isVideo : Option Bool) (isGroup : Bool) (callId : String) (chatId : Option JsVal)
  | callAccepted (signal : Signal) (callId userId userName userAvatar : JsVal)
  | callRejected (callId reason userId : JsVal)
  | callEnded (callId endedBy : JsVal) (reason : Option String)
  | participantLeft (callId : String) (userId : JsVal)
  | userAudioToggle (userId : JsVal) (isMuted : Bool)
  | userVideoToggle (userId : JsVal) (isVideoOff : Bool)
  | userScreenShare (userId : JsVal) (isSharing : Bool)
  | iceCandidate (candidate : Signal) (sender : JsVal)
  | addedToGroup (chatId : JsVal)
  | groupMemberAdded (addedUser addedBy : JsVal)
  | removedFromGroup (chatId : JsVal)
  | groupMemberRemoved (removedUserId removedBy : JsVal)
  | groupInfoUpdated (chatId : JsVal) (updates : String)
  deriving DecidableEq, Repr

/-- One call of `emit`. -/
structure Emit where
  target : Target
  payload : Payload
  deriving DecidableEq, Repr

/-- What a handler leaves behind: the new state, the emissions in order, and
whether it ended by an uncaught exception. -/
structure Result where
  relay : Relay
  emits : List Emit
  threw : Bool
  deriving DecidableEq, Repr

/-- A handler that changes nothing and emits nothing. -/
def Result.skip (st : Relay) : Result := { relay := st, emits := [], threw := false }

/-! ## Sockets, rooms and the presence store -/

/-- The open socket with the given id. -/
def Relay.findSocket (st : Relay) (sid : String) : Option Socket :=
  st.sockets.find? (fun s => decide (s.id = sid))

/-- Replace the record of socket `sock.id`. -/
def Relay.putSocket (st : Relay) (sock : Socket) : Relay :=
  { st with sockets := st.sockets.map (fun s => if s.id = sock.id then sock else s) }

/-- The call `socket.join(room)`: rooms form a set. -/
def joinRoom (rooms : List JsVal) (room : JsVal) : List JsVal :=
  if room ∈ rooms then rooms else rooms ++ [room]

/-- The call `socket.leave(room)`. -/
def leaveRoom (rooms : List JsVal) (room : JsVal) : List JsVal :=
  rooms.filter (fun r => decide (r ≠ room))

/-- The call `User.findByIdAndUpdate(id, fields)` when it does not throw: the
document with that id, if there is one, gets the three fields. -/
def updateUser (users : JsMap Presence) (id : JsVal) (p : Presence) : JsMap Presence :=
  match id with
  | .str k => if (JsMap.getStr users k).isSome then JsMap.set users k p else users
  | _ => users

/-- The stored online flag of a user, if the user has a document. -/
def Relay.isOnline (st : Relay) (u : String) : Option Bool :=
  (JsMap.getStr st.users u).map Presence.isOnline

/-- The open sockets whose `socket.userId` is `u`. -/
def Relay.connectionsOf (st : Relay) (u : JsVal) : List Socket :=
  st.sockets.filter (fun s => decide (s.userId = u))

/-! ## Presence, rooms, messages, typing -/

/-- A new connection: socket.io puts the socket in the room named by its own id. -/
def connection (st : Relay) (sid : String) : Result :=
  match st.findSocket sid with
  | some _ => Result.skip st
  | none =>
      { relay := { st with sockets := st.sockets ++ [{ id := sid, userId := .undefined,
                                                       rooms := [.str sid] }] },
        emits := [], threw := false }

/-- Handler of `setup`. `dbOk = false` is the case where the presence write
throws: the `catch` logs and nothing after the write runs. -/
def setup (st : Relay) (sock : Socket) (userId : JsVal) (now : Nat) (dbOk : Bool) : Result :=
  let st1 := st.putSocket { sock with rooms := joinRoom sock.rooms userId, userId := userId }
  if dbOk then
    let doc : Presence := { isOnline := true, socketId := some sock.id, lastSeen := now }
    { relay := { st1 with users := updateUser st1.users userId doc },
      emits := [⟨.broadcast sock.id, .userOnline userId⟩],
      threw := false }
  else
    { relay := st1, emits := [], threw := false }

/-- Handler of `join chat`. -/
def joinChat (st : Relay) (sock : Socket) (chatId : JsVal) : Result :=
  { relay := st.putSocket { sock with rooms := joinRoom sock.rooms chatId },
    emits := [], threw := false }

/-- Handler of `leave chat`. -/
def leaveChat (st : Relay) (sock : Socket) (chatId : JsVal) : Result :=
  { relay := st.putSocket { sock with rooms := leaveRoom sock.rooms chatId },
    emits := [], threw := false }

/-- Outcome of `Chat.findById`: it throws, finds nothing, or finds a chat
whose `users` field (ids of the store, as strings) may be missing. -/
inductive ChatLookup where
  | failed
  | notFound
  | found (users : Option (List String))
  deriving DecidableEq, Repr

/-- Handler of `new message`; the lookup result is supplied by the store. User
ids are compared after `toString()`. When the sender id is not a string,
`messageData.sender._id.toString()` throws at the first user and the `catch`
logs: nothing is emitted. -/
def newMessage (st : Relay) (sock : Socket) (messageData : Message) (lookup : ChatLookup) :
    Result :=
  match lookup, messageData.sender with
  | .found (some users), .str sender =>
      { relay := st,
        emits := (users.filter (fun userId => decide (userId ≠ sender))).map
          (fun userId => ⟨.socketTo sock.id (.str userId), .messageReceived messageData⟩),
        threw := false }
  | _, _ => Result.skip st

/-- Key of `typingUsers`: the template literal chatId-userId. -/
def typingKey (chatId userId : JsVal) : String :=
  chatId.template ++ "-" ++ userId.template

/-- Handler of `typing`. -/
def typing (st : Relay) (sock : Socket) (chatId userId userName : JsVal) (now : Nat) : Result :=
  let entry : TypingEntry :=
    { chatId := chatId, userId := userId, userName := userName, timestamp := now }
  { relay := { st with typingUsers := JsMap.set st.typingUsers (typingKey chatId userId) entry },
    emits := [⟨.socketTo sock.id chatId, .typing chatId userId userName⟩],
    threw := false }

/-- Handler of `stop typing`. -/
def stopTyping (st : Relay) (sock : Socket) (chatId userId : JsVal) : Result :=
  { relay := { st with typingUsers := JsMap.deleteStr st.typingUsers (typingKey chatId userId) },
    emits := [⟨.socketTo sock.id chatId, .stopTyping chatId userId⟩],
    threw := false }

/-- Handlers of `message read`, `reaction added`, `message deleted` and
`message edited`: one emission to the chat room, no state. -/
def messageRead (st : Relay) (sock : Socket) (chatId userId : JsVal) (messageIds : String) :
    Result :=
  { relay := st, emits := [⟨.socketTo sock.id chatId, .messagesRead chatId userId messageIds⟩],
    threw := false }

/-- Handler of `reaction added`. -/
def reactionAdded (st : Relay) (sock : Socket) (chatId messageId : JsVal) (reaction : String) :
    Result :=
  { relay := st, emits := [⟨.socketTo sock.id chatId, .reactionUpdate messageId reaction⟩],
    threw := false }

/-- Handler of `message deleted`. -/
def messageDeleted (st : Relay) (sock : Socket) (chatId messageId : JsVal) : Result :=
  { relay := st, emits := [⟨.socketTo sock.id chatId, .messageRemoved messageId⟩],
    threw := false }

/-- Handler of `message edited`. -/
def messageEdited (st : Relay) (sock : Socket) (chatId : JsVal) (message : String) : Result :=
  { relay := st, emits := [⟨.socketTo sock.id chatId, .messageUpdated message⟩],
    threw := false }

/-! ## Call signalling -/

/-- Data of a `call user` event. -/
structure CallUserData where
  userToCall : JsVal
  signalData : Signal
  sender : JsVal
  callerName : JsVal
  callerAvatar : JsVal
  isVideo : Option Bool
  isGroup : Bool
  chatId : JsVal
  participants : Option (List JsVal)
  deriving DecidableEq, Repr

/-- The callId of a group call: the template literal group-chatId-now. -/
def groupCallId (chatId : JsVal) (now : Nat) : String :=
  "group-" ++ chatId.template ++ "-" ++ toString now

/-- The callId of a one-on-one call: the template literal call-from-userToCall-now. -/
def directCallId (sender userToCall : JsVal) (now : Nat) : String :=
  "call-" ++ sender.template ++ "-" ++ userToCall.template ++ "-" ++ toString now

/-- Handler of `call user`. The handler reads the clock twice: `now` is the
value of the `Date.now()` inside the callId template literal, `startTime` the
value of the later `Date.now()` stored in the session's `startTime` field. In
the group branch `participants.forEach` throws on an absent list, after the
session has been stored. -/
def callUser (st : Relay) (d : CallUserData) (now : Nat) (startTime : Nat) : Result :=
  if d.isGroup then
    let callId := groupCallId d.chatId now
    let call : CallSession := .group d.chatId d.sender [d.sender] d.isVideo startTime
    let st1 := { st with activeCalls := JsMap.set st.activeCalls callId call }
    match d.participants with
    | none => { relay := st1, emits := [], threw := true }
    | some ps =>
        { relay := st1,
          emits := (ps.filter (fun userId => decide (userId ≠ d.sender))).map (fun userId =>
            ⟨.toRoom userId, .incomingCall d.signalData d.sender d.callerName d.callerAvatar
              d.isVideo true callId (some d.chatId)⟩),
          threw := false }
  else
    let callId := directCallId d.sender d.userToCall now
    let call : CallSession := .direct d.sender d.userToCall d.isVideo startTime
    { relay := { st with activeCalls := JsMap.set st.activeCalls callId call },
      emits := [⟨.toRoom d.userToCall, .incomingCall d.signalData d.sender d.callerName
        d.callerAvatar d.isVideo false callId none⟩],
      threw := false }

/-- Data of an `answer call` event. -/
structure AnswerData where
  signal : Signal
  to_ : JsVal
  callId : JsVal
  userId : JsVal
  userName : JsVal
  userAvatar : JsVal
  deriving DecidableEq, Repr

/-- The statement `call.participants.push(userId)` on a stored session. -/
def CallSession.push : CallSession → JsVal → CallSession
  | .group chatId initiator ps v t, userId => .group chatId initiator (ps ++ [userId]) v t
  | c, _ => c

/-- Handler of `answer call`. -/
def answerCall (st : Relay) (d : AnswerData) : Result :=
  let calls :=
    match d.callId, JsMap.get st.activeCalls d.callId with
    | .str k, some call =>
        if call.isGroup then JsMap.set st.activeCalls k (call.push d.userId) else st.activeCalls
    | _, _ => st.activeCalls
  { relay := { st with activeCalls := calls },
    emits := [⟨.toRoom d.to_, .callAccepted d.signal d.callId d.userId d.userName d.userAvatar⟩],
    threw := false }

/-- Data of a `reject call` event. -/
structure RejectData where
  to_ : JsVal
  callId : JsVal
  reason : JsVal
  userId : JsVal
  deriving DecidableEq, Repr

/-- Handler of `reject call`. -/
def rejectCall (st : Relay) (d : RejectData) : Result :=
  let calls :=
    match JsMap.get st.activeCalls d.callId with
    | some call => if !call.isGroup then JsMap.delete st.activeCalls d.callId else st.activeCalls
    | none => st.activeCalls
  { relay := { st with activeCalls := calls },
    emits := [⟨.toRoom d.to_, .callRejected d.callId d.reason d.userId⟩],
    threw := false }

/-- The loop shared by `end call` and the media handlers: one emission to
every listed participant other than `userId`, nothing for an absent list. -/
def fanOut (participants : Option (List JsVal)) (userId : JsVal) (payload : Payload) :
    List Emit :=
  match participants with
  | none => []
  | some ps =>
      (ps.filter (fun participantId => decide (participantId ≠ userId))).map
        (fun participantId => ⟨.toRoom participantId, payload⟩)

/-- Data of an `end call` event. -/
structure EndData where
  callId : JsVal
  userId : JsVal
  participants : Option (List JsVal)
  deriving DecidableEq, Repr

/-- Handler of `end call`. -/
def endCall (st : Relay) (d : EndData) : Result :=
  { relay := { st with activeCalls := JsMap.delete st.activeCalls d.callId },
    emits := fanOut d.participants d.userId (.callEnded d.callId d.userId none),
    threw := false }

/-- Handler of `toggle audio`. -/
def toggleAudio (st : Relay) (userId : JsVal) (isMuted : Bool)
    (participants : Option (List JsVal)) : Result :=
  { relay := st, emits := fanOut participants userId (.userAudioToggle userId isMuted),
    threw := false }

/-- Handler of `toggle video`. -/
def toggleVideo (st : Relay) (userId : JsVal) (isVideoOff : Bool)
    (participants : Option (List JsVal)) : Result :=
  { relay := st, emits := fanOut participants userId (.userVideoToggle userId isVideoOff),
    threw := false }

/-- Handler of `screen share start`. -/
def screenShareStart (st : Relay) (userId : JsVal) (participants : Option (List JsVal)) :
    Result :=
  { relay := st, emits := fanOut participants userId (.userScreenShare userId true),
    threw := false }

/-- Handler of `screen share stop`. -/
def screenShareStop (st : Relay) (userId : JsVal) (participants : Option (List JsVal)) :
    Result :=
  { relay := st, emits := fanOut participants userId (.userScreenShare userId false),
    threw := false }

/-- Handler of `ice candidate`. -/
def iceCandidate (st : Relay) (sock : Socket) (candidate : Signal) (to_ : JsVal) : Result :=
  { relay := st, emits := [⟨.toRoom to_, .iceCandidate candidate sock.userId⟩], threw := false }

/-! ## Group management -/

/-- Handler of `group user added`; `addedUser` stands for `addedUser._id`. -/
def groupUserAdded (st : Relay) (sock : Socket) (chatId addedUser addedBy : JsVal) : Result :=
  { relay := st,
    emits := [⟨.toRoom addedUser, .addedToGroup chatId⟩,
              ⟨.socketTo sock.id chatId, .groupMemberAdded addedUser addedBy⟩],
    threw := false }

/-- Handler of `group user removed`. -/
def groupUserRemoved (st : Relay) (sock : Socket) (chatId removedUserId removedBy : JsVal) :
    Result :=
  { relay := st,
    emits := [⟨.toRoom removedUserId, .removedFromGroup chatId⟩,
              ⟨.socketTo sock.id chatId, .groupMemberRemoved removedUserId removedBy⟩],
    threw := false }

/-- Handler of `group updated`. -/
def groupUpdated (st : Relay) (sock : Socket) (chatId : JsVal) (updates : String) : Result :=
  { relay := st, emits := [⟨.socketTo sock.id chatId, .groupInfoUpdated chatId updates⟩],
    threw := false }

/-! ## Disconnect -/

/-- The body of the loop `for (const [callId, call] of activeCalls)` of the
disconnect handler for one entry and `socket.userId = u`: what is left of the
entry (`none` when it is deleted) and the emissions. -/
def cleanupCall (u : JsVal) (callId : String) (call : CallSession) :
    Option CallSession × List Emit :=
  if call.caller = u ∨ call.receiver = u then
    let otherUser := if call.caller = u then call.receiver else call.caller
    (none, [⟨.toRoom otherUser, .callEnded (.str callId) u (some "disconnected")⟩])
  else
    match call with
    | .group chatId initiator ps v t =>
        if u ∈ ps then
          let ps1 := ps.filter (fun p => decide (p ≠ u))
          (if ps1.length = 0 then none else some (.group chatId initiator ps1 v t),
           ps1.map (fun p => ⟨.toRoom p, .participantLeft callId u⟩))
        else (some call, [])
    | .direct _ _ _ _ => (some call, [])

/-- The loop itself. The body touches only the entry it is visiting, so the
loop is the body applied to the entries in insertion order; the result is the
entries that remain and the emissions, in order. -/
def cleanupCalls (u : JsVal) : JsMap CallSession → JsMap CallSession × List Emit
  | [] => ([], [])
  | (callId, call) :: rest =>
      let here := cleanupCall u callId call
      let tail := cleanupCalls u rest
      (match here.1 with
       | some call1 => (callId, call1) :: tail.1
       | none => tail.1,
       here.2 ++ tail.2)

/-- The loop `for (const [key, value] of typingUsers)` of the disconnect
handler: entries whose `userId` is `u` are deleted. -/
def cleanupTyping (u : JsVal) (m : JsMap TypingEntry) : JsMap TypingEntry :=
  m.filter (fun e => decide (e.2.userId ≠ u))

/-- Handler of `disconnect`; the socket itself is gone afterwards.
`dbOk = false` is the case where the presence write throws: the `catch`
logs and nothing after the write runs. -/
def disconnect (st : Relay) (sock : Socket) (now : Nat) (dbOk : Bool) : Result :=
  let st1 := { st with sockets := st.sockets.filter (fun s => decide (s.id ≠ sock.id)) }
  if sock.userId.truthy then
    if dbOk then
      let doc : Presence := { isOnline := false, socketId := none, lastSeen := now }
      let calls := cleanupCalls sock.userId st1.activeCalls
      { relay := { st1 with users := updateUser st1.users sock.userId doc,
                            activeCalls := calls.1,
                            typingUsers := cleanupTyping sock.userId st1.typingUsers },
        emits := ⟨.broadcast sock.id, .userOffline sock.userId⟩ :: calls.2,
        threw := false }
    else Result.skip st1
  else Result.skip st1

/-! ## Events and runs -/

/-- What a connected client can send, with the values the environment supplies
(clock readings, outcome of store accesses). -/
inductive Event where
  | setup (userId : JsVal) (now : Nat) (dbOk : Bool)
  | joinChat (chatId : JsVal)
  | leaveChat (chatId : JsVal)
  | newMessage (messageData : Message) (lookup : ChatLookup)
  | typing (chatId userId userName : JsVal) (now : Nat)
  | stopTyping (chatId userId : JsVal)
  | messageRead (chatId userId : JsVal) (messageIds : String)
  | reactionAdded (chatId messageId : JsVal) (reaction : String)
  | messageDeleted (chatId messageId : JsVal)
  | messageEdited (chatId : JsVal) (message : String)
  | callUser (d : CallUserData) (now : Nat) (startTime : Nat)
  | answerCall (d : AnswerData)
  | rejectCall (d : RejectData)
  | endCall (d : EndData)
  | toggleAudio (userId : JsVal) (isMuted : Bool) (participants : Option (List JsVal))
  | toggleVideo (userId : JsVal) (isVideoOff : Bool) (participants : Option (List JsVal))
  | screenShareStart (userId : JsVal) (participants : Option (List JsVal))
  | screenShareStop (userId : JsVal) (participants : Option (List JsVal))
  | iceCandidate (candidate : Signal) (to_ : JsVal)
  | groupUserAdded (chatId addedUser addedBy : JsVal)
  | groupUserRemoved (chatId removedUserId removedBy : JsVal)
  | groupUpdated (chatId : JsVal) (updates : String)
  | disconnect (now : Nat) (dbOk : Bool)
  deriving DecidableEq, Repr

/-- Dispatch of one event received on the open socket `sock`. -/
def handle (st : Relay) (sock : Socket) : Event → Result
  | .setup userId now dbOk => setup st sock userId now dbOk
  | .joinChat chatId => joinChat st sock chatId
  | .leaveChat chatId => leaveChat st sock chatId
  | .newMessage messageData lookup => newMessage st sock messageData lookup
  | .typing chatId userId userName now => typing st sock chatId userId userName now
  | .stopTyping chatId userId => stopTyping st sock chatId userId
  | .messageRead chatId userId messageIds => messageRead st sock chatId userId messageIds
  | .reactionAdded chatId messageId reaction => reactionAdded st sock chatId messageId reaction
  | .messageDeleted chatId messageId => messageDeleted st sock chatId messageId
  | .messageEdited chatId message => messageEdited st sock chatId message
  | .callUser d now startTime => callUser st d now startTime
  | .answerCall d => answerCall st d
  | .rejectCall d => rejectCall st d
  | .endCall d => endCall st d
  | .toggleAudio userId isMuted participants => toggleAudio st userId isMuted participants
  | .toggleVideo userId isVideoOff participants => toggleVideo st userId isVideoOff participants
  | .screenShareStart userId participants => screenShareStart st userId participants
  | .screenShareStop userId participants => screenShareStop st userId participants
  | .iceCandidate candidate to_ => iceCandidate st sock candidate to_
  | .groupUserAdded chatId addedUser addedBy => groupUserAdded st sock chatId addedUser addedBy
  | .groupUserRemoved chatId removedUserId removedBy =>
      groupUserRemoved st sock chatId removedUserId removedBy
  | .groupUpdated chatId updates => groupUpdated st sock chatId updates
  | .disconnect now dbOk => disconnect st sock now dbOk

/-- An input of the relay: a new connection with a socket id, or an event on
a socket. -/
inductive Input where
  | connect (sid : String)
  | event (sid : String) (ev : Event)
  deriving DecidableEq, Repr

/-- One step of the relay. An event on a socket that is not open is not
delivered. -/
def step (st : Relay) : Input → Result
  | .connect sid => connection st sid
  | .event sid ev =>
      match st.findSocket sid with
      | some sock => handle st sock ev
      | none => Result.skip st

/-- The state after a sequence of inputs. -/
def run (st : Relay) : List Input → Relay
  | [] => st
  | i :: rest => run (step st i).relay rest

/-- The emissions of a sequence of inputs, in order. -/
def runEmits (st : Relay) : List Input → List Emit
  | [] => []
  | i :: rest => (step st i).emits ++ runEmits (step st i).relay rest

/-- The number of emissions of `payload` addressed by `io.to(room)`. -/
def countTo (emits : List Emit) (room : JsVal) (payload : Payload) : Nat :=
  emits.count ⟨.toRoom room, payload⟩

/-! ## Client call context (`CallContext.jsx`) -/

/-- The fields of a user object that the call context reads. -/
structure UserInfo where
  id : JsVal
  name : JsVal
  avatar : JsVal
  deriving DecidableEq, Repr

/-- Kind of a media track. -/
inductive TrackKind where
  | audio
  | video
  deriving DecidableEq, Repr

/-- A media track: its kind, its `enabled` flag and whether `stop()` was called. -/
structure Track where
  kind : TrackKind
  enabled : Bool
  stopped : Bool
  deriving DecidableEq, Repr

/-- A media stream is its list of tracks. -/
abbrev MediaStream := List Track

/-- An element of the `participants` state. -/
structure Participant where
  id : JsVal
  name : JsVal
  avatar : JsVal
  isMuted : Bool
  isVideoOff : Bool
  connecting : Option Bool
  isScreenSharing : Option Bool
  deriving DecidableEq, Repr

/-- The payload of `incoming call` as kept in the `incomingCall` state. -/
structure IncomingCallData where
  signal : Signal
  sender : JsVal
  callerName : JsVal
  callerAvatar : JsVal
  isVideo : Option Bool
  isGroup : Bool
  callId : String
  chatId : Option JsVal
  deriving DecidableEq, Repr

/-- What the client sends to the relay with `socket.emit`. -/
inductive ClientEmit where
  | callUser (d : CallUserData)
  | answerCall (d : AnswerData)
  | rejectCall (d : RejectData)
  | endCall (d : EndData)
  | toggleAudio (callId userId : JsVal) (isMuted : Bool) (participants : List JsVal)
  | toggleVideo (callId userId : JsVal) (isVideoOff : Bool) (participants : List JsVal)
  | screenShareStart (callId userId : JsVal) (participants : List JsVal)
  | screenShareStop (callId userId : JsVal) (participants : List JsVal)
  deriving DecidableEq, Repr

/-- The `signal` listener registered on a peer: the event it emits, the
signalling data still to be filled in. -/
inductive SignalListener where
  | callUser (d : CallUserData)
  | answerCall (d : AnswerData)
  deriving DecidableEq, Repr

/-- A `SimplePeer` object: its role, the stream given to it, the `signal`
listener, the data passed to `peer.signal`, and whether it was destroyed. -/
structure Peer where
  initiator : Bool
  stream : MediaStream
  listener : SignalListener
  received : List Signal
  destroyed : Bool
  deriving DecidableEq, Repr

/-- The state and refs of one `CallProvider`. -/
structure Client where
  user : UserInfo
  isInCall : Bool
  callId : JsVal
  callType : Option String
  isGroupCall : Bool
  participants : List Participant
  callDuration : Nat
  incomingCall : Option IncomingCallData
  isMuted : Bool
  isVideoOff : Bool
  isScreenSharing : Bool
  localStream : Option MediaStream
  screenStream : Option MediaStream
  peers : List (JsVal × Peer)
  durationInterval : Bool
  stoppedTracks : List Track
  destroyedPeers : List Peer
  deriving DecidableEq, Repr

/-- The initial values of the `useState` and `useRef` calls. The last two
fields are not program state: they record, in order, the tracks on which
`stop()` and the peers on which `destroy()` has been called. -/
def Client.init (user : UserInfo) : Client :=
  { user := user, isInCall := false, callId := .null, callType := none, isGroupCall := false,
    participants := [], callDuration := 0, incomingCall := none, isMuted := false,
    isVideoOff := false, isScreenSharing := false, localStream := none, screenStream := none,
    peers := [], durationInterval := false, stoppedTracks := [], destroyedPeers := [] }

/-- The assignment `peersRef.current[key] = peer`. -/
def setPeer : List (JsVal × Peer) → JsVal → Peer → List (JsVal × Peer)
  | [], key, peer => [(key, peer)]
  | (k, p) :: rest, key, peer =>
      if k = key then (key, peer) :: rest else (k, p) :: setPeer rest key peer

/-- The lookup `peersRef.current[key]`. -/
def getPeer : List (JsVal × Peer) → JsVal → Option Peer
  | [], _ => none
  | (k, p) :: rest, key => if k = key then some p else getPeer rest key

/-- The function `cleanup`: every track of the local stream and of the screen
stream is stopped and both refs are cleared, every peer of the table that is
not yet destroyed is destroyed and the table is emptied, the timer is cleared
and every piece of state returns to its initial value. -/
def Client.cleanup (c : Client) : Client :=
  { c with stoppedTracks := c.stoppedTracks ++ c.localStream.getD [] ++ c.screenStream.getD [],
           destroyedPeers := c.destroyedPeers ++
             (c.peers.map Prod.snd).filter (fun peer => !peer.destroyed),
           localStream := none, screenStream := none, peers := [], durationInterval := false,
           isInCall := false, callId := .null, callType := none, isGroupCall := false,
           participants := [], callDuration := 0, isMuted := false, isVideoOff := false,
           isScreenSharing := false, incomingCall := none }

/-- The participant entry of the local user. -/
def selfParticipant (user : UserInfo) (isVideoOff : Bool) : Participant :=
  { id := user.id, name := user.name, avatar := user.avatar, isMuted := false,
    isVideoOff := isVideoOff, connecting := none, isScreenSharing := none }

/-- The function `startCall`; `media` is the stream `getUserMedia` resolves
to, `none` when it rejects. Returns the new client and the returned boolean. -/
def Client.startCall (c : Client) (targetUsers : List UserInfo) (isVideo : Bool) (chatId : JsVal)
    (isGroup : Bool) (media : Option MediaStream) : Client × Bool :=
  match media with
  | none => (c.cleanup, false)
  | some stream =>
      let c1 : Client :=
        { c with localStream := some stream, isInCall := true,
                 callType := some (if isVideo then "video" else "audio"),
                 isVideoOff := !isVideo, isGroupCall := isGroup,
                 participants := [selfParticipant c.user (!isVideo)],
                 durationInterval := true }
      if isGroup then
        let usersToCall := targetUsers.filter (fun u => decide (u.id ≠ c.user.id))
        let peers := usersToCall.foldl (fun acc targetUser =>
          setPeer acc targetUser.id
            { initiator := true, stream := stream, received := [], destroyed := false,
              listener := .callUser
                { userToCall := targetUser.id, signalData := "", sender := c.user.id,
                  callerName := c.user.name, callerAvatar := c.user.avatar,
                  isVideo := some isVideo, isGroup := true, chatId := chatId,
                  participants := some (targetUsers.map UserInfo.id) } }) c1.peers
        ({ c1 with peers := peers }, true)
      else
        match targetUsers with
        | [] => (c1.cleanup, false)
        | targetUser :: _ =>
            let peer : Peer :=
              { initiator := true, stream := stream, received := [], destroyed := false,
                listener := .callUser
                  { userToCall := targetUser.id, signalData := "", sender := c.user.id,
                    callerName := c.user.name, callerAvatar := c.user.avatar,
                    isVideo := some isVideo, isGroup := false, chatId := .undefined,
                    participants := none } }
            let other : Participant :=
              { id := targetUser.id, name := targetUser.name, avatar := targetUser.avatar,
                isMuted := false, isVideoOff := true, connecting := some true,
                isScreenSharing := none }
            ({ c1 with peers := setPeer c1.peers targetUser.id peer,
                       participants := c1.participants ++ [other] }, true)

/-- The `signal` event of the peer stored under `key`, with signalling data
`data`: what the listener emits. -/
def Client.peerSignal (c : Client) (key : JsVal) (data : Signal) : List ClientEmit :=
  match getPeer c.peers key with
  | none => []
  | some peer =>
      match peer.listener with
      | .callUser d => [.callUser { d with signalData := data }]
      | .answerCall d => [.answerCall { d with signal := data }]

/-- The function `answerCall`; `media` as in `startCall`. -/
def Client.answerCall (c : Client) (media : Option MediaStream) : Client :=
  match c.incomingCall with
  | none => c
  | some incomingCall =>
      match media with
      | none => { c.cleanup with incomingCall := none }
      | some stream =>
          let isVideo : Bool := incomingCall.isVideo == some true
          let caller : Participant :=
            { id := incomingCall.sender, name := incomingCall.callerName,
              avatar := incomingCall.callerAvatar, isMuted := false, isVideoOff := false,
              connecting := none, isScreenSharing := none }
          let peer : Peer :=
            { initiator := false, stream := stream, received := [incomingCall.signal],
              destroyed := false,
              listener := .answerCall
                { signal := "", to_ := incomingCall.sender, callId := .str incomingCall.callId,
                  userId := c.user.id, userName := c.user.name, userAvatar := c.user.avatar } }
          { c with localStream := some stream, isInCall := true,
                   callId := .str incomingCall.callId,
                   callType := some (if isVideo then "video" else "audio"),
                   isVideoOff := !isVideo, isGroupCall := incomingCall.isGroup,
                   participants := [selfParticipant c.user (!isVideo), caller],
                   durationInterval := true,
                   peers := setPeer c.peers incomingCall.sender peer,
                   incomingCall := none }

/-- The function `rejectCall`. -/
def Client.rejectCall (c : Client) : Client × List ClientEmit :=
  match c.incomingCall with
  | none => (c, [])
  | some incomingCall =>
      ({ c with incomingCall := none },
       [.rejectCall { to_ := incomingCall.sender, callId := .str incomingCall.callId,
                      reason := .str "rejected", userId := c.user.id }])

/-- The function `endCall`. -/
def Client.endCall (c : Client) : Client × List ClientEmit :=
  (c.cleanup,
   [.endCall { callId := c.callId, userId := c.user.id,
               participants := some (c.participants.map Participant.id) }])

/-- Listener of `incoming call`. -/
def Client.onIncomingCall (c : Client) (data : IncomingCallData) : Client :=
  { c with incomingCall := some data }

/-- Listener of `call accepted`. -/
def Client.onCallAccepted (c : Client) (signal : Signal) (userId : JsVal) : Client :=
  match getPeer c.peers userId with
  | none => c
  | some peer =>
      { c with peers := setPeer c.peers userId { peer with received := peer.received ++ [signal] },
               participants := c.participants.map (fun p =>
                 if p.id = userId then { p with connecting := some false } else p) }

/-- Listener of `call rejected`: `toast.error`, then `cleanup()`. -/
def Client.onCallRejected (c : Client) : Client := c.cleanup

/-- Listener of `call ended`. Its first statement calls `toast.info`, which the
imported `react-hot-toast` does not define, so the listener throws a TypeError
before it reaches `cleanup()`: neither state nor refs change. -/
def Client.onCallEnded (c : Client) : Client := c

/-- The relay event a client emission becomes; `now` is the relay clock when
the handler runs (both clock readings of a `call user` handler fall in that
same millisecond). -/
def deliver (now : Nat) : ClientEmit → Event
  | .callUser d => .callUser d now now
  | .answerCall d => .answerCall d
  | .rejectCall d => .rejectCall d
  | .endCall d => .endCall d
  | .toggleAudio _ userId isMuted participants => .toggleAudio userId isMuted (some participants)
  | .toggleVideo _ userId isVideoOff participants =>
      .toggleVideo userId isVideoOff (some participants)
  | .screenShareStart _ userId participants => .screenShareStart userId (some participants)
  | .screenShareStop _ userId participants => .screenShareStop userId (some participants)

/-- The socket listeners of the call context, by received event. -/
def Client.receive (c : Client) : Payload → Client
  | .incomingCall signal sender callerName callerAvatar isVideo isGroup callId chatId =>
      c.onIncomingCall
        { signal := signal, sender := sender, callerName := callerName,
          callerAvatar := callerAvatar, isVideo := isVideo, isGroup := isGroup, callId := callId,
          chatId := chatId }
  | .callAccepted signal _ userId _ _ => c.onCallAccepted signal userId
  | .callRejected _ _ _ => c.onCallRejected
  | .callEnded _ _ _ => c.onCallEnded
  | .userAudioToggle userId isMuted =>
      { c with participants := c.participants.map (fun p =>
          if p.id = userId then { p with isMuted := isMuted } else p) }
  | .userVideoToggle userId isVideoOff =>
      { c with participants := c.participants.map (fun p =>
          if p.id = userId then { p with isVideoOff := isVideoOff } else p) }
  | .userScreenShare userId isSharing =>
      { c with participants := c.participants.map (fun p =>
          if p.id = userId then { p with isScreenSharing := some isSharing } else p) }
  | .iceCandidate candidate sender =>
      match getPeer c.peers sender with
      | none => c
      | some peer =>
          let peer1 : Peer := { peer with received := peer.received ++ [candidate] }
          { c with peers := setPeer c.peers sender peer1 }
  | _ => c

/-- The client of a user receives, in order, the emissions addressed by
`io.to` to the room named by the user id. -/
def Client.receiveAll (c : Client) (emits : List Emit) : Client :=
  emits.foldl (fun acc e => if e.target = .toRoom acc.user.id then acc.receive e.payload else acc) c

/-- All client emissions of a list handled by the relay on socket `sid`, the
i-th at clock `now + i`: final state and emissions. -/
def relayAll (st : Relay) (sid : String) (now : Nat) : List ClientEmit → Relay × List Emit
  | [] => (st, [])
  | e :: rest =>
      let r := step st (.event sid (deliver now e))
      let tail := relayAll r.relay sid (now + 1) rest
      (tail.1, r.emits ++ tail.2)

/-- The outcome of a direct call scenario: both clients, the relay, the
`end call` emission of the party that hung up and what the relay emitted for it. -/
structure DirectCallRun where
  caller : Client
  callee : Client
  relay : Relay
  endEmits : List ClientEmit
  relayEmits : List Emit
  deriving DecidableEq, Repr

/-- A direct call: `a` on socket `sa` calls `b` on socket `sb` with `startCall`,
the relay mints the callId at clock `now`, `b` answers with `answerCall`, the
answer reaches `a`, and then the caller (`callerEnds`) or the callee hangs up
with `endCall`. -/
def directCall (a b : UserInfo) (now : Nat) (callerEnds : Bool) : DirectCallRun :=
  let stream : MediaStream := [⟨.audio, true, false⟩, ⟨.video, true, false⟩]
  let r0 := run (Relay.init [])
    [.connect "sa", .connect "sb", .event "sa" (.setup a.id 1 true),
     .event "sb" (.setup b.id 2 true)]
  let ca := ((Client.init a).startCall [b] true .null false (some stream)).1
  let r1 := relayAll r0 "sa" now (ca.peerSignal b.id "offer")
  let cb := ((Client.init b).receiveAll r1.2).answerCall (some stream)
  let r2 := relayAll r1.1 "sb" (now + 1) (cb.peerSignal a.id "answer")
  let ca2 := ca.receiveAll r2.2
  if callerEnds then
    let e := ca2.endCall
    let r3 := relayAll r2.1 "sa" (now + 2) e.2
    { caller := e.1, callee := cb.receiveAll r3.2, relay := r3.1, endEmits := e.2,
      relayEmits := r3.2 }
  else
    let e := cb.endCall
    let r3 := relayAll r2.1 "sb" (now + 2) e.2
    { caller := ca2.receiveAll r3.2, callee := e.1, relay := r3.1, endEmits := e.2,
      relayEmits := r3.2 }

/-- Users of the scenarios. -/
def userA : UserInfo := { id := .str "A", name := .str "Ann", avatar := .null }

/-- Second user of the scenarios. -/
def userB : UserInfo := { id := .str "B", name := .str "Bob", avatar := .null }

/-- Third user of the scenarios. -/
def userC : UserInfo := { id := .str "C", name := .str "Cy", avatar := .null }

/-! ## Presence: the claimed reading and scenarios -/

/-- The write, if any, that one input performs on the stored online flag of
user `u`: a `setup` naming `u` writes `true`, the disconnect of a socket whose
`socket.userId` is `u` writes `false`; both only when the store accepts the
write. -/
def presenceWrite (st : Relay) (i : Input) (u : String) : Option Bool :=
  match i with
  | .event sid (.setup userId _ true) =>
      if (st.findSocket sid).isSome ∧ userId = .str u then some true else none
  | .event sid (.disconnect _ true) =>
      match st.findSocket sid with
      | some sock => if sock.userId = .str u ∧ u ≠ "" then some false else none
      | none => none
  | _ => none

/-- The most recent write on the online flag of `u` along a sequence of inputs. -/
def lastPresenceWrite (st : Relay) : List Input → String → Option Bool
  | [], _ => none
  | i :: rest, u =>
      match lastPresenceWrite (step st i).relay rest u with
      | some b => some b
      | none => presenceWrite st i u

/-- Two stored users, both offline. -/
def twoUsers : JsMap Presence :=
  [("A", { isOnline := false, socketId := none, lastSeen := 0 }),
   ("B", { isOnline := false, socketId := none, lastSeen := 0 })]

/-- User A binds connection c1, user B binds c2 and c3, then c2 disconnects. -/
def secondDeviceCloses : List Input :=
  [.connect "c1", .connect "c2", .connect "c3",
   .event "c1" (.setup (.str "A") 1 true),
   .event "c2" (.setup (.str "B") 2 true),
   .event "c3" (.setup (.str "B") 3 true),
   .event "c2" (.disconnect 4 true)]

/-- A group invite from A for chat G naming A and B, handled at clock 5, which
B then answers twice (for instance from two devices). -/
def answeredTwice : List Input :=
  [.connect "sa", .connect "sb",
   .event "sa" (.setup (.str "A") 1 true),
   .event "sb" (.setup (.str "B") 2 true),
   .event "sa" (.callUser
     { userToCall := .str "B", signalData := "offer", sender := .str "A",
       callerName := .str "Ann", callerAvatar := .null, isVideo := some true, isGroup := true,
       chatId := .str "G", participants := some [.str "A", .str "B"] } 5 5),
   .event "sb" (.answerCall
     { signal := "answer", to_ := .str "A", callId := .str "group-G-5", userId := .str "B",
       userName := .str "Bob", userAvatar := .null }),
   .event "sb" (.answerCall
     { signal := "answer", to_ := .str "A", callId := .str "group-G-5", userId := .str "B",
       userName := .str "Bob", userAvatar := .null })]

/-- The answer of user `u` to the group call `group-G-5` of A. -/
def answerOf (u name : String) : Event :=
  .answerCall
    { signal := "answer", to_ := .str "A", callId := .str "group-G-5", userId := .str u,
      userName := .str name, userAvatar := .null }

/-- A group call of four: A invites B, C and D on chat G at clock 5 and all three
answer; a direct call from C to B at clock 6 is ringing as well. -/
def fourPartyCall : Relay :=
  run (Relay.init [])
    [.connect "sa", .connect "sb", .connect "sc", .connect "sd",
     .event "sa" (.setup (.str "A") 1 true),
     .event "sb" (.setup (.str "B") 2 true),
     .event "sc" (.setup (.str "C") 3 true),
     .event "sd" (.setup (.str "D") 4 true),
     .event "sa" (.callUser
       { userToCall := .str "B", signalData := "offer", sender := .str "A",
         callerName := .str "Ann", callerAvatar := .null, isVideo := some true, isGroup := true,
         chatId := .str "G",
         participants := some [.str "A", .str "B", .str "C", .str "D"] } 5 5),
     .event "sb" (answerOf "B" "Bob"),
     .event "sc" (answerOf "C" "Cy"),
     .event "sd" (answerOf "D" "Dee"),
     .event "sc" (.callUser
       { userToCall := .str "B", signalData := "offer2", sender := .str "C",
         callerName := .str "Cy", callerAvatar := .null, isVideo := some false,
         isGroup := false, chatId := .undefined, participants := none } 6 6)]

/-- The `end call` event of B for the group call of A, as the client of B
builds it: its minted callId and the participants B knows (itself and A). -/
def endByB : Event :=
  .endCall { callId := .str "group-G-5", userId := .str "B",
             participants := some [.str "B", .str "A"] }

/-- A one-on-one invite from A to B. -/
def inviteAB (isVideo : Bool) : CallUserData :=
  { userToCall := .str "B", signalData := "offer", sender := .str "A", callerName := .str "Ann",
    callerAvatar := .null, isVideo := some isVideo, isGroup := false, chatId := .undefined,
    participants := none }

/-- A group invite for chat G from the given initiator. -/
def inviteGroupG (initiator : String) : CallUserData :=
  { userToCall := .str "B", signalData := "offer", sender := .str initiator,
    callerName := .str initiator, callerAvatar := .null, isVideo := some true, isGroup := true,
    chatId := .str "G", participants := some [.str "A", .str "B", .str "C"] }

/-- The emissions of the peers a group `startCall` opened, in the order of
the targets, the peer for target `t` signalling the offer `offer-t`. -/
def groupSignals (c : Client) (chatUsers : List UserInfo) : List ClientEmit :=
  (chatUsers.filter (fun u => decide (u.id ≠ c.user.id))).flatMap
    (fun t => c.peerSignal t.id ("offer-" ++ t.id.template))

/-- A group call start: `a` on socket `sa` invokes `startCall(chatUsers, true,
chat, true)`; every peer signals its offer and the relay handles the resulting
`call user` events at clocks `now`, `now + 1`, ... -/
def groupCallStart (a : UserInfo) (chatUsers : List UserInfo) (chat : JsVal) (now : Nat) :
    Relay × List Emit :=
  let stream : MediaStream := [⟨.audio, true, false⟩, ⟨.video, true, false⟩]
  let r0 := run (Relay.init []) [.connect "sa", .event "sa" (.setup a.id 1 true)]
  let ca := ((Client.init a).startCall chatUsers true chat true (some stream)).1
  relayAll r0 "sa" now (groupSignals ca chatUsers)

/-- The answer of B to the one-on-one call `call-A-B-100`. -/
def answerAB : AnswerData :=
  { signal := "answer", to_ := .str "A", callId := .str "call-A-B-100", userId := .str "B",
    userName := .str "Bob", userAvatar := .null }

/-- The clock reading that mints a callId while an input is handled: for a
`call user` event the value of the `Date.now()` inside the callId template
literal; no other input mints a callId. -/
def Input.mintClock : Input → List Nat
  | .event _ (.callUser _ now _) => [now]
  | _ => []

/-- The callId clock readings of all `call user` events of an input list. -/
def mintClocks : List Input → List Nat
  | [] => []
  | i :: rest => i.mintClock ++ mintClocks rest

/-- Every key of `activeCalls` ends with a dash followed by the decimal form of
one of the clock readings `clocks`. -/
def Relay.keysMintedAt (st : Relay) (clocks : List Nat) : Prop :=
  ∀ k ∈ JsMap.keys st.activeCalls, ∃ (p : String) (n : Nat),
    n ∈ clocks ∧ k = p ++ "-" ++ toString n

/-! ## Group participants: invariant and its proviso -/

/-- Every group session of `activeCalls` lists each participant once. -/
def Relay.participantsNodup (st : Relay) : Prop :=
  ∀ e ∈ st.activeCalls, ∀ ps, e.2.participants = some ps → ps.Nodup

/-- The input is not a delivered `answer call` whose `userId` is already in the
participants of the group session it names. -/
def answerIsFirst (st : Relay) : Input → Bool
  | .event sid (.answerCall d) =>
      match st.findSocket sid, JsMap.get st.activeCalls d.callId with
      | some _, some (.group _ _ ps _ _) => decide (d.userId ∉ ps)
      | _, _ => true
  | _ => true

/-- Along the run from `st`, no `answer call` names a user already listed in
the session it answers. -/
def answersAreFirst (st : Relay) : List Input → Bool
  | [] => true
  | i :: rest => answerIsFirst st i && answersAreFirst (step st i).relay rest
/-- A group invite from A for chat G handled at clock 5, answered once by B. -/
def answeredOnce : List Input :=
  [.connect "sa", .connect "sb",
   .event "sa" (.callUser (inviteGroupG "A") 5 5),
   .event "sb" (answerOf "B" "Bob")]

/-- The `reject call` event of user B for the call `callId` of A. -/
def rejectByB (callId : String) : RejectData :=
  { to_ := .str "A", callId := .str callId, reason := .str "rejected", userId := .str "B" }

/-- The outcome of the group call scenario: the client of the initiator before
and after it handles the rejection, and the relay. -/
structure GroupRejectRun where
  before : Client
  after : Client
  relay : Relay
  deriving DecidableEq, Repr

/-- A group call: `a` invokes `startCall(chatUsers, true, chat, true)` for the
chat users `a`, `b`, `c`; the relay handles the invites from clock `now` on; `b`
answers with `answerCall` and the answer reaches `a`; then `c` declines with
`rejectCall` and the relay forwards the rejection to `a`. -/
def groupCallRejected (a b c : UserInfo) (chat : JsVal) (now : Nat) : GroupRejectRun :=
  let stream : MediaStream := [⟨.audio, true, false⟩, ⟨.video, true, false⟩]
  let r0 := run (Relay.init [])
    [.connect "sa", .connect "sb", .connect "sc", .event "sa" (.setup a.id 1 true),
     .event "sb" (.setup b.id 2 true), .event "sc" (.setup c.id 3 true)]
  let ca := ((Client.init a).startCall [a, b, c] true chat true (some stream)).1
  let r1 := relayAll r0 "sa" now (groupSignals ca [a, b, c])
  let cb := ((Client.init b).receiveAll r1.2).answerCall (some stream)
  let r2 := relayAll r1.1 "sb" (now + 2) (cb.peerSignal a.id "answer")
  let ca2 := ca.receiveAll r2.2
  let cc := (Client.init c).receiveAll r1.2
  let r3 := relayAll r2.1 "sc" (now + 3) cc.rejectCall.2
  { before := ca2, after := ca2.receiveAll r3.2, relay := r3.1 }

/-- User B has bound connection c2; connection c3 is open and not yet bound. -/
def oneDeviceBound : Relay :=
  run (Relay.init twoUsers)
    [.connect "c2", .connect "c3", .event "c2" (.setup (.str "B") 2 true)]

/-- A is bound on c1 and B on c2; B reports typing in chat room R at time 5. -/
def typistBound : Relay :=
  run (Relay.init twoUsers)
    [.connect "c1", .connect "c2",
     .event "c1" (.setup (.str "A") 1 true),
     .event "c2" (.setup (.str "B") 2 true),
     .event "c1" (.joinChat (.str "R")),
     .event "c2" (.joinChat (.str "R")),
     .event "c2" (.typing (.str "R") (.str "B") (.str "Bob") 5)]

/-- A connection that never sent `setup` reports typing for B in R and then
disconnects. -/
def unboundTypist : List Input :=
  [.connect "c", .event "c" (.typing (.str "R") (.str "B") (.str "Bob") 5),
   .event "c" (.disconnect 9 true)]

/-! ## Delivery of emissions -/

/-- The open sockets an emission is delivered to, by socket.io: `io.to(room)`
reaches the members of the room, `socket.to(room)` the members other than the
emitting socket, `socket.broadcast` every socket other than the emitting one. -/
def Relay.receivers (st : Relay) (e : Emit) : List Socket :=
  match e.target with
  | .toRoom room => st.sockets.filter (fun s => decide (room ∈ s.rooms))
  | .socketTo sender room =>
      st.sockets.filter (fun s => decide (room ∈ s.rooms) && decide (s.id ≠ sender))
  | .broadcast sender => st.sockets.filter (fun s => decide (s.id ≠ sender))

/-- A is bound on c1 and on c2, B on c3; the connection c2 of A has also joined
the room named B. -/
def senderInOtherRoom : Relay :=
  run (Relay.init twoUsers)
    [.connect "c1", .connect "c2", .connect "c3",
     .event "c1" (.setup (.str "A") 1 true),
     .event "c2" (.setup (.str "A") 2 true),
     .event "c3" (.setup (.str "B") 3 true),
     .event "c2" (.joinChat (.str "B"))]

/-- A message of A for the chat X. -/
def messageOfA : Message := { chat := .str "X", sender := .str "A", body := "hello" }

/-! ## Rooms -/

/-- The rooms the open socket `sid` is a member of. -/
def Relay.roomsOf (st : Relay) (sid : String) : Option (List JsVal) :=
  (st.findSocket sid).map Socket.rooms

/-- The open sockets that are members of `room`. -/
def Relay.members (st : Relay) (room : JsVal) : List Socket :=
  st.sockets.filter (fun s => decide (room ∈ s.rooms))

/-- A is bound on c1 and B on c3; c1 sends `join chat` naming B and c3 sends
`leave chat` naming B. -/
def roomsCrossed : Relay :=
  run (Relay.init twoUsers)
    [.connect "c1", .connect "c3",
     .event "c1" (.setup (.str "A") 1 true),
     .event "c3" (.setup (.str "B") 3 true),
     .event "c1" (.joinChat (.str "B")),
     .event "c3" (.leaveChat (.str "B"))]

/-! ## Client: video toggle -/

/-- The expression `stream.getVideoTracks()[0]`. -/
def firstVideo (stream : MediaStream) : Option Track :=
  stream.find? (fun t => decide (t.kind = .video))

/-- The statement `videoTrack.enabled = !videoTrack.enabled` on the first video
track of a stream. -/
def flipFirstVideo : MediaStream → MediaStream
  | [] => []
  | t :: rest =>
      if t.kind = .video then { t with enabled := !t.enabled } :: rest
      else t :: flipFirstVideo rest

/-- The call `sender.replaceTrack(track)` on the first sender of a peer that
carries a video track; nothing happens without such a sender. -/
def replaceFirstVideo : MediaStream → Track → MediaStream
  | [], _ => []
  | t :: rest, track =>
      if t.kind = .video then track :: rest else t :: replaceFirstVideo rest track

/-- The function `toggleVideo`; `media` is the stream that
`getUserMedia({ video: true })` resolves to, `none` when it rejects. -/
def Client.toggleVideo (c : Client) (media : Option MediaStream) : Client × List ClientEmit :=
  match c.localStream with
  | none => (c, [])
  | some stream =>
      let notice : ClientEmit :=
        .toggleVideo c.callId c.user.id (!c.isVideoOff) (c.participants.map Participant.id)
      match firstVideo stream with
      | some videoTrack =>
          ({ c with localStream := some (flipFirstVideo stream),
                    isVideoOff := videoTrack.enabled }, [notice])
      | none =>
          if !c.isVideoOff then
            match media.bind firstVideo with
            | none => (c, [])
            | some newVideoTrack =>
                ({ c with localStream := some (stream ++ [newVideoTrack]),
                          peers := c.peers.map (fun kp =>
                            (kp.1, { kp.2 with
                              stream := replaceFirstVideo kp.2.stream newVideoTrack })),
                          isVideoOff := false }, [notice])
          else (c, [notice])

/-- An audio-only call of A to B: `startCall([B], false, null, false)` with a
stream holding one audio track. -/
def audioOnlyCall : Client :=
  ((Client.init userA).startCall [userB] false .null false (some [⟨.audio, true, false⟩])).1

/-! ## Message input (`MessageInput.jsx`) -/

/-- A call of one of the two typing callbacks. -/
inductive TypingCall where
  | start
  | stop
  deriving DecidableEq, Repr

/-- The part of `MessageInput` that drives the typing callbacks: whether the
message has text after `trim()`, whether an attachment is selected,
`isTypingRef.current`, whether a quiet timer is pending, and whether the
component is mounted. -/
structure MessageInput where
  hasText : Bool
  attachment : Bool
  isTyping : Bool
  timerPending : Bool
  mounted : Bool
  deriving DecidableEq, Repr

/-- A freshly mounted input. -/
def MessageInput.init : MessageInput :=
  { hasText := false, attachment := false, isTyping := false, timerPending := false,
    mounted := true }

/-- What happens to a mounted input: a keystroke (with whether the new value
has text), the expiry of the 2000 ms timer, a send attempt (with the `sending`
prop), a change of the `onTypingStop` prop (the effect is run again), unmount. -/
inductive InputEvent where
  | keystroke (hasText : Bool)
  | timerExpiry
  | send (sending : Bool)
  | propChange
  | unmount
  deriving DecidableEq, Repr

/-- The cleanup function of the effect: the timer is cleared and, when
`isTypingRef.current` is set, `onTypingStop` is called; the ref is not reset. -/
def MessageInput.effectCleanup (m : MessageInput) : MessageInput × List TypingCall :=
  ({ m with timerPending := false }, if m.isTyping then [.stop] else [])

/-- One event on the input: the new state and the callbacks called, in order. -/
def MessageInput.step (m : MessageInput) : InputEvent → MessageInput × List TypingCall
  | .keystroke hasText =>
      if m.mounted then
        ({ m with hasText := hasText, isTyping := true, timerPending := true },
         if !m.isTyping then [.start] else [])
      else (m, [])
  | .timerExpiry =>
      if m.timerPending then ({ m with isTyping := false, timerPending := false }, [.stop])
      else (m, [])
  | .send sending =>
      if !m.mounted || ((!m.hasText && !m.attachment) || sending) then (m, [])
      else
        ({ m with timerPending := false, isTyping := false, hasText := false,
                  attachment := false },
         if m.isTyping then [.stop] else [])
  | .propChange => if m.mounted then m.effectCleanup else (m, [])
  | .unmount =>
      if m.mounted then ({ m.effectCleanup.1 with mounted := false }, m.effectCleanup.2)
      else (m, [])

/-- The callbacks called along a sequence of events, in order. -/
def MessageInput.calls (m : MessageInput) : List InputEvent → List TypingCall
  | [] => []
  | e :: rest => (m.step e).2 ++ MessageInput.calls (m.step e).1 rest

/-- A one-on-one invite of A that names no target and no media kind. -/
def inviteWithoutTarget : CallUserData :=
  { userToCall := .undefined, signalData := "offer", sender := .str "A", callerName := .str "Ann",
    callerAvatar := .null, isVideo := none, isGroup := false, chatId := .undefined,
    participants := none }

/-- The four-party call with D reporting typing in the chat room G at time 8. -/
def typistInCall : Relay :=
  run fourPartyCall [.event "sd" (.typing (.str "G") (.str "D") (.str "Dee") 8)]

/-- The client of B with a pending invite of A. -/
def ringingAtB : Client :=
  (Client.init userB).onIncomingCall
    { signal := "offer", sender := .str "A", callerName := .str "Ann", callerAvatar := .null,
      isVideo := some true, isGroup := false, callId := "call-A-B-100", chatId := none }

/-- The clients of the scenario in which an invite is answered during a call:
after the first `answerCall`, after the second, and after `endCall`, with what
`endCall` emitted. -/
structure SecondAnswerRun where
  first : Client
  second : Client
  ended : Client
  endEmits : List ClientEmit
  deriving DecidableEq, Repr

/-- B answers an audio invite of A (`call-A-B-100`), is shown a second, video
invite of A (`call-A-B-200`) while in that call and answers it too, then hangs
up with `endCall`. The microphone stream has one track, the camera stream two. -/
def secondAnswerThenEnd : SecondAnswerRun :=
  let microphone : MediaStream := [⟨.audio, true, false⟩]
  let camera : MediaStream := [⟨.audio, true, false⟩, ⟨.video, true, false⟩]
  let c1 := ((Client.init userB).onIncomingCall
    { signal := "offer-1", sender := .str "A", callerName := .str "Ann", callerAvatar := .null,
      isVideo := some false, isGroup := false, callId := "call-A-B-100",
      chatId := none }).answerCall (some microphone)
  let c2 := (c1.onIncomingCall
    { signal := "offer-2", sender := .str "A", callerName := .str "Ann", callerAvatar := .null,
      isVideo := some true, isGroup := false, callId := "call-A-B-200",
      chatId := none }).answerCall (some camera)
  let e := c2.endCall
  { first := c1, second := c2, ended := e.1, endEmits := e.2 }

/-- The idle call state: every piece of state has its initial value, the refs
are cleared and the peer table is empty. -/
def Client.isIdle (c : Client) : Prop :=
  c.isInCall = false ∧ c.callId = .null ∧ c.callType = none ∧ c.isGroupCall = false ∧
  c.participants = [] ∧ c.callDuration = 0 ∧ c.isMuted = false ∧ c.isVideoOff = false ∧
  c.isScreenSharing = false ∧ c.incomingCall = none ∧ c.localStream = none ∧
  c.screenStream = none ∧ c.durationInterval = false ∧ c.peers = []

/-- The rooms of a socket after it has received an event other than
`disconnect`, from its rooms before: `setup` and `join chat` add the named
room, `leave chat` removes it, no other event changes them. -/
def roomsAfter (rooms : List JsVal) : Event → List JsVal
  | .setup userId _ _ => joinRoom rooms userId
  | .joinChat chatId => joinRoom rooms chatId
  | .leaveChat chatId => leaveRoom rooms chatId
  | _ => rooms

/-! # Theorems -/

/-! ## Lemmas on maps -/

theorem JsMap.getStr_set_self {α : Type} (m : JsMap α) (k : String) (v : α) :
    JsMap.getStr (JsMap.set m k v) k = some v := by
  induction m with
  | nil => simp [JsMap.set, JsMap.getStr]
  | cons e rest ih =>
      obtain ⟨k', v'⟩ := e
      by_cases h : k' = k
      · simp [JsMap.set, JsMap.getStr, h]
      · simp [JsMap.set, JsMap.getStr, h, ih]

theorem JsMap.getStr_set_ne {α : Type} (m : JsMap α) (k k' : String) (v : α) (h : k ≠ k') :
    JsMap.getStr (JsMap.set m k v) k' = JsMap.getStr m k' := by
  induction m with
  | nil => simp [JsMap.set, JsMap.getStr, h]
  | cons e rest ih =>
      obtain ⟨k0, v0⟩ := e
      by_cases h0 : k0 = k
      · subst h0; simp [JsMap.set, JsMap.getStr, h]
      · by_cases h1 : k0 = k'
        · subst h1; simp [JsMap.set, JsMap.getStr, h0]
        · simp [JsMap.set, JsMap.getStr, h0, h1, ih]

theorem JsMap.getStr_deleteStr_self {α : Type} (m : JsMap α) (k : String) :
    JsMap.getStr (JsMap.deleteStr m k) k = none := by
  induction m with
  | nil => simp [JsMap.deleteStr, JsMap.getStr]
  | cons e rest ih =>
      obtain ⟨k0, v0⟩ := e
      by_cases h0 : k0 = k
      · simpa [JsMap.deleteStr, List.filter, h0] using ih
      · simpa [JsMap.deleteStr, List.filter, h0, JsMap.getStr] using ih

theorem JsMap.getStr_deleteStr_ne {α : Type} (m : JsMap α) (k k' : String) (h : k ≠ k') :
    JsMap.getStr (JsMap.deleteStr m k) k' = JsMap.getStr m k' := by
  induction m with
  | nil => simp [JsMap.deleteStr, JsMap.getStr]
  | cons e rest ih =>
      obtain ⟨k0, v0⟩ := e
      by_cases h0 : k0 = k
      · subst h0
        simpa [JsMap.deleteStr, List.filter, JsMap.getStr, h] using ih
      · by_cases h1 : k0 = k'
        · subst h1; simp [JsMap.deleteStr, List.filter, h0, JsMap.getStr]
        · simpa [JsMap.deleteStr, List.filter, h0, JsMap.getStr, h1] using ih

/-! ## Presence -/

theorem isOnline_updateUser (users : JsMap Presence) (id : JsVal) (p : Presence) (u : String) :
    (JsMap.getStr (updateUser users id p) u).map Presence.isOnline =
      if id = .str u then (JsMap.getStr users u).map (fun _ => p.isOnline)
      else (JsMap.getStr users u).map Presence.isOnline := by
  cases id with
  | undefined => simp [updateUser]
  | null => simp [updateUser]
  | str k =>
      by_cases hk : k = u
      · subst hk
        cases hg : JsMap.getStr users k with
        | none => simp [updateUser, hg]
        | some q => simp [updateUser, hg, JsMap.getStr_set_self]
      · have hne : JsVal.str k ≠ JsVal.str u := fun h => hk (JsVal.str.inj h)
        cases hg : JsMap.getStr users k with
        | none => simp [updateUser, hg, hne]
        | some q => simp [updateUser, hg, hne, JsMap.getStr_set_ne _ _ _ _ hk]

/-- Handlers other than `setup` and `disconnect` do not touch the `User` collection. -/
theorem handle_users (st : Relay) (sock : Socket) (ev : Event)
    (h1 : ∀ userId now dbOk, ev ≠ .setup userId now dbOk)
    (h2 : ∀ now dbOk, ev ≠ .disconnect now dbOk) :
    (handle st sock ev).relay.users = st.users := by
  cases ev
  case setup userId now dbOk => exact absurd rfl (h1 userId now dbOk)
  case disconnect now dbOk => exact absurd rfl (h2 now dbOk)
  case newMessage m l =>
    simp only [handle, newMessage]
    split <;> rfl
  case callUser d now =>
    simp only [handle, callUser]
    split
    · split <;> rfl
    · rfl
  all_goals rfl

theorem presenceWrite_other (st : Relay) (sid : String) (ev : Event) (u : String)
    (h1 : ∀ userId now dbOk, ev ≠ .setup userId now dbOk)
    (h2 : ∀ now dbOk, ev ≠ .disconnect now dbOk) :
    presenceWrite st (.event sid ev) u = none := by
  cases ev
  case setup userId now dbOk => exact absurd rfl (h1 userId now dbOk)
  case disconnect now dbOk => exact absurd rfl (h2 now dbOk)
  all_goals rfl

theorem map_isOnline_none (x : Option Presence) :
    x.map Presence.isOnline = (x.map Presence.isOnline).map (fun b0 => (none : Option Bool).getD b0) := by
  cases x <;> rfl

theorem step_isOnline (st : Relay) (i : Input) (u : String) :
    (step st i).relay.isOnline u =
      (st.isOnline u).map (fun b0 => (presenceWrite st i u).getD b0) := by
  cases i with
  | connect sid =>
      have hw : presenceWrite st (.connect sid) u = none := rfl
      rw [hw]
      simp only [step, connection, Relay.isOnline]
      cases st.findSocket sid <;> exact map_isOnline_none _
  | event sid ev =>
      cases hs : st.findSocket sid with
      | none =>
          have hw : presenceWrite st (.event sid ev) u = none := by
            cases ev
            case setup userId now dbOk => cases dbOk <;> simp [presenceWrite, hs]
            case disconnect now dbOk => cases dbOk <;> simp [presenceWrite, hs]
            all_goals rfl
          rw [hw]
          simp only [step, hs, Result.skip, Relay.isOnline]
          exact map_isOnline_none _
      | some sock =>
          by_cases h1 : ∃ userId now dbOk, ev = .setup userId now dbOk
          · obtain ⟨userId, now, dbOk, rfl⟩ := h1
            cases dbOk
            · have hw : presenceWrite st (.event sid (.setup userId now false)) u = none := rfl
              rw [hw]
              simp only [step, hs, handle, setup, Relay.isOnline, Relay.putSocket]
              exact map_isOnline_none _
            · simp only [step, hs, handle, setup, presenceWrite, Relay.isOnline, Relay.putSocket,
                if_true, isOnline_updateUser]
              by_cases h : userId = .str u
              · simp [h]
              · simp only [h, and_false, if_false]
                exact map_isOnline_none _
          · by_cases h2 : ∃ now dbOk, ev = .disconnect now dbOk
            · obtain ⟨now, dbOk, rfl⟩ := h2
              cases dbOk
              · have hw : presenceWrite st (.event sid (.disconnect now false)) u = none := rfl
                rw [hw]
                simp only [step, hs, handle, disconnect, Relay.isOnline]
                split <;> exact map_isOnline_none _
              · simp only [step, hs, handle, disconnect, presenceWrite, Relay.isOnline]
                by_cases ht : sock.userId.truthy = true
                · simp only [ht, if_true, isOnline_updateUser]
                  by_cases h : sock.userId = .str u
                  · have hu : u ≠ "" := by
                      rw [h] at ht; simpa [JsVal.truthy] using ht
                    simp [h, hu]
                  · simp only [h, false_and, if_false]
                    exact map_isOnline_none _
                · have hn : ¬ (sock.userId = .str u ∧ u ≠ "") := by
                    rintro ⟨h1, h2⟩
                    apply ht; rw [h1]; simpa [JsVal.truthy] using h2
                  simp only [ht, hn, Result.skip, if_false]
                  exact map_isOnline_none _
            · have h1' : ∀ userId now dbOk, ev ≠ .setup userId now dbOk :=
                fun a b c h => h1 ⟨a, b, c, h⟩
              have h2' : ∀ now dbOk, ev ≠ .disconnect now dbOk := fun a b h => h2 ⟨a, b, h⟩
              rw [presenceWrite_other st sid ev u h1' h2']
              simp only [step, hs, Relay.isOnline, handle_users st sock ev h1' h2']
              exact map_isOnline_none _

/-- C1 (as amended): along every sequence of inputs the stored online flag of a
user is the value of the most recent accepted presence write for that user,
`true` by a `setup` naming the user and `false` by the disconnect of any socket
bound to the user, whether or not other sockets bound to the user are still
open; without such a write it keeps its initial value, and a user without a
document has no flag. -/
theorem online_flag_is_last_presence_write (st : Relay) (inputs : List Input) (u : String) :
    (run st inputs).isOnline u =
      (st.isOnline u).map (fun b0 => (lastPresenceWrite st inputs u).getD b0) := by
  induction inputs generalizing st with
  | nil => simp [run, lastPresenceWrite]
  | cons i rest ih =>
      simp only [run, lastPresenceWrite]
      rw [ih, step_isOnline]
      cases st.isOnline u with
      | none => rfl
      | some b0 =>
          cases lastPresenceWrite (step st i).relay rest u <;> rfl

/-- C1 (counterexample): A binds c1, B binds c2 and c3, c2 disconnects. The
socket c3 is still open and bound to B, yet the stored flag of B is `false`:
the flag does not coincide with B having an open bound connection. -/
theorem online_flag_second_device_counterexample :
    ¬ ((run (Relay.init twoUsers) secondDeviceCloses).isOnline "B" = some true ↔
        (run (Relay.init twoUsers) secondDeviceCloses).connectionsOf (.str "B") ≠ []) := by
  decide

/-! ## Direct call teardown -/

/-- C2 (evaluation at the failing input): A calls B with `startCall`, the relay
mints `call-A-B-100`, B answers, and A hangs up with `endCall`. The `end call`
event of A carries `callId: null`, B is sent `call ended` once, and the session
is still stored afterwards. When B hangs up instead, the event carries the
minted callId and the session is deleted. -/
theorem caller_end_call_keeps_session :
    (directCall userA userB 100 true).endEmits =
        [.endCall { callId := .null, userId := .str "A",
                    participants := some [.str "A", .str "B"] }] ∧
      (directCall userA userB 100 true).relayEmits =
        [⟨.toRoom (.str "B"), .callEnded .null (.str "A") none⟩] ∧
      (directCall userA userB 100 true).relay.activeCalls =
        [("call-A-B-100", .direct (.str "A") (.str "B") (some true) 100)] ∧
      (directCall userA userB 100 false).endEmits =
        [.endCall { callId := .str "call-A-B-100", userId := .str "B",
                    participants := some [.str "B", .str "A"] }] ∧
      (directCall userA userB 100 false).relay.activeCalls = [] := by
  decide

/-! ## Disconnect cleanup of calls -/

theorem JsMap.getStr_eq_none_of_not_mem {α : Type} (m : JsMap α) (k : String)
    (h : k ∉ JsMap.keys m) : JsMap.getStr m k = none := by
  induction m with
  | nil => rfl
  | cons e rest ih =>
      obtain ⟨k0, v0⟩ := e
      simp only [JsMap.keys, List.map_cons, List.mem_cons, not_or] at h
      have h0 : k0 ≠ k := fun hh => h.1 hh.symm
      simp only [JsMap.getStr, h0, if_false]
      exact ih h.2

theorem cleanupCalls_keys (u : JsVal) (m : JsMap CallSession) (k : String)
    (h : k ∈ JsMap.keys (cleanupCalls u m).1) : k ∈ JsMap.keys m := by
  induction m with
  | nil => simp [cleanupCalls, JsMap.keys] at h
  | cons e rest ih =>
      obtain ⟨k0, c0⟩ := e
      simp only [cleanupCalls] at h
      cases hh : (cleanupCall u k0 c0).1 with
      | none =>
          rw [hh] at h
          simp only [JsMap.keys, List.map_cons, List.mem_cons]
          exact Or.inr (ih h)
      | some c1 =>
          rw [hh] at h
          simp only [JsMap.keys, List.map_cons, List.mem_cons] at h ⊢
          rcases h with h | h
          · exact Or.inl h
          · exact Or.inr (ih h)

theorem getStr_cleanupCalls (u : JsVal) (m : JsMap CallSession) (k : String)
    (hnd : (JsMap.keys m).Nodup) :
    JsMap.getStr (cleanupCalls u m).1 k =
      (JsMap.getStr m k).bind (fun c => (cleanupCall u k c).1) := by
  induction m with
  | nil => rfl
  | cons e rest ih =>
      obtain ⟨k0, c0⟩ := e
      simp only [JsMap.keys, List.map_cons, List.nodup_cons] at hnd
      by_cases h0 : k0 = k
      · subst h0
        have hnone : JsMap.getStr (cleanupCalls u rest).1 k0 = none :=
          JsMap.getStr_eq_none_of_not_mem _ _ (fun hm => hnd.1 (cleanupCalls_keys u rest k0 hm))
        simp only [cleanupCalls, JsMap.getStr, if_true, Option.some_bind]
        cases hh : (cleanupCall u k0 c0).1 with
        | none => simpa using hnone
        | some c1 => simp [JsMap.getStr]
      · simp only [cleanupCalls, JsMap.getStr, h0, if_false]
        cases hh : (cleanupCall u k0 c0).1 with
        | none => simpa using ih hnd.2
        | some c1 => simpa [JsMap.getStr, h0] using ih hnd.2

theorem count_cleanupCalls (u : JsVal) (m : JsMap CallSession) (k : String) (e : Emit)
    (hnd : (JsMap.keys m).Nodup)
    (hne : ∀ k0 c, k0 ≠ k → e ∉ (cleanupCall u k0 c).2) :
    (cleanupCalls u m).2.count e =
      match JsMap.getStr m k with
      | some c => (cleanupCall u k c).2.count e
      | none => 0 := by
  induction m with
  | nil => rfl
  | cons x rest ih =>
      obtain ⟨k0, c0⟩ := x
      simp only [JsMap.keys, List.map_cons, List.nodup_cons] at hnd
      have ih' := ih hnd.2
      simp only [cleanupCalls, List.count_append]
      by_cases h0 : k0 = k
      · subst h0
        have hnone : JsMap.getStr rest k0 = none :=
          JsMap.getStr_eq_none_of_not_mem _ _ hnd.1
        rw [hnone] at ih'
        simp only [JsMap.getStr, if_true]
        simp only [] at ih'
        omega
      · have hz : (cleanupCall u k0 c0).2.count e = 0 :=
          List.count_eq_zero_of_not_mem (hne k0 c0 h0)
        simp only [JsMap.getStr, h0, if_false]
        omega

theorem truthy_ne_undefined (u : JsVal) (h : u.truthy = true) : JsVal.undefined ≠ u := by
  intro hu; subst hu; simp [JsVal.truthy] at h

theorem disconnect_activeCalls (st : Relay) (sock : Socket) (now : Nat)
    (hbound : sock.userId.truthy = true) :
    (disconnect st sock now true).relay.activeCalls = (cleanupCalls sock.userId st.activeCalls).1 := by
  simp [disconnect, hbound]

theorem disconnect_emits (st : Relay) (sock : Socket) (now : Nat)
    (hbound : sock.userId.truthy = true) :
    (disconnect st sock now true).emits =
      ⟨.broadcast sock.id, .userOffline sock.userId⟩ :: (cleanupCalls sock.userId st.activeCalls).2 := by
  simp [disconnect, hbound]

theorem countTo_disconnect (st : Relay) (sock : Socket) (now : Nat)
    (hbound : sock.userId.truthy = true) (room : JsVal) (payload : Payload) :
    countTo (disconnect st sock now true).emits room payload =
      (cleanupCalls sock.userId st.activeCalls).2.count ⟨.toRoom room, payload⟩ := by
  rw [disconnect_emits st sock now hbound]
  simp [countTo, List.count_cons]

theorem count_participantLeft (ps : List JsVal) (u p : JsVal) (k : String) :
    ((ps.filter (fun q => decide (q ≠ u))).map
        (fun q => (⟨.toRoom q, .participantLeft k u⟩ : Emit))).count
        ⟨.toRoom p, .participantLeft k u⟩ =
      if p = u then 0 else ps.count p := by
  have hinj : Function.Injective (fun q => (⟨.toRoom q, .participantLeft k u⟩ : Emit)) := by
    intro a b hab
    simpa using hab
  rw [show (⟨.toRoom p, .participantLeft k u⟩ : Emit) =
      (fun q => (⟨.toRoom q, .participantLeft k u⟩ : Emit)) p from rfl,
    List.count_map_of_injective _ _ hinj]
  by_cases hp : p = u
  · subst hp
    simp only [if_true]
    apply List.count_eq_zero_of_not_mem
    simp [List.mem_filter]
  · simp only [hp, if_false]
    apply List.count_filter
    simpa using hp

theorem callEnded_not_elsewhere (u : JsVal) (k : String) (room : JsVal) (r : Option String)
    (k0 : String) (c : CallSession) (h : k0 ≠ k) :
    (⟨.toRoom room, .callEnded (.str k) u r⟩ : Emit) ∉ (cleanupCall u k0 c).2 := by
  unfold cleanupCall
  split
  · simp only [List.mem_singleton]
    intro he
    injection he with _ hp
    injection hp with hk
    injection hk with hk
    exact h hk.symm
  · split
    · split
      · simp
      · simp
    · simp

theorem participantLeft_not_elsewhere (u : JsVal) (k : String) (room : JsVal)
    (k0 : String) (c : CallSession) (h : k0 ≠ k) :
    (⟨.toRoom room, .participantLeft k u⟩ : Emit) ∉ (cleanupCall u k0 c).2 := by
  unfold cleanupCall
  split
  · simp
  · split
    · split
      · simp only [List.mem_map, not_exists, not_and]
        intro q _ he
        injection he with _ hp
        injection hp with hk
        exact h hk
      · simp
    · simp

/-- C3 (as amended): when a socket bound to user U disconnects and the presence
write succeeds, every direct session whose caller or receiver is U is deleted
and its other party is sent `call ended` with reason `disconnected` exactly
once (nobody else is); every group session whose participants include U loses
U, is deleted exactly when no participant remains, and every remaining
participant is sent one `participant left` per occurrence in the participants
list (exactly one when it occurs once), U none; every session not involving U
is unchanged. -/
theorem disconnect_call_cleanup (st : Relay) (sock : Socket) (now : Nat)
    (hkeys : (JsMap.keys st.activeCalls).Nodup) (hbound : sock.userId.truthy = true) :
    (∀ k caller receiver v t,
        JsMap.getStr st.activeCalls k = some (.direct caller receiver v t) →
        caller = sock.userId ∨ receiver = sock.userId →
        JsMap.getStr (disconnect st sock now true).relay.activeCalls k = none ∧
        ∀ room, countTo (disconnect st sock now true).emits room
            (.callEnded (.str k) sock.userId (some "disconnected")) =
          if room = (if caller = sock.userId then receiver else caller) then 1 else 0) ∧
    (∀ k chatId initiator ps v t,
        JsMap.getStr st.activeCalls k = some (.group chatId initiator ps v t) →
        sock.userId ∈ ps →
        JsMap.getStr (disconnect st sock now true).relay.activeCalls k =
          (if ps.filter (fun p => decide (p ≠ sock.userId)) = [] then none
           else some (.group chatId initiator
             (ps.filter (fun p => decide (p ≠ sock.userId))) v t)) ∧
        ∀ p, countTo (disconnect st sock now true).emits p
            (.participantLeft k sock.userId) =
          if p = sock.userId then 0 else ps.count p) ∧
    (∀ k call,
        JsMap.getStr st.activeCalls k = some call →
        call.caller ≠ sock.userId → call.receiver ≠ sock.userId →
        (∀ ps, call.participants = some ps → sock.userId ∉ ps) →
        JsMap.getStr (disconnect st sock now true).relay.activeCalls k = some call) := by
  have hu := truthy_ne_undefined sock.userId hbound
  refine ⟨?_, ?_, ?_⟩
  · intro k caller receiver v t hget hinv
    have hbody : cleanupCall sock.userId k (.direct caller receiver v t) =
        (none, [⟨.toRoom (if caller = sock.userId then receiver else caller),
          .callEnded (.str k) sock.userId (some "disconnected")⟩]) := by
      simp [cleanupCall, CallSession.caller, CallSession.receiver, hinv]
    refine ⟨?_, ?_⟩
    · rw [disconnect_activeCalls st sock now hbound, getStr_cleanupCalls _ _ _ hkeys, hget]
      simp [hbody]
    · intro room
      rw [countTo_disconnect st sock now hbound,
        count_cleanupCalls _ _ k _ hkeys
          (fun k0 c h => callEnded_not_elsewhere _ _ _ _ k0 c h), hget]
      simp only [hbody, List.count_cons, List.count_nil]
      by_cases hr : room = (if caller = sock.userId then receiver else caller)
      · simp [hr]
      · have : ¬ (if caller = sock.userId then receiver else caller) = room :=
          fun h => hr h.symm
        simp [hr, this]
  · intro k chatId initiator ps v t hget hmem
    have hbody : cleanupCall sock.userId k (.group chatId initiator ps v t) =
        (if (ps.filter (fun p => decide (p ≠ sock.userId))).length = 0 then none
         else some (.group chatId initiator (ps.filter (fun p => decide (p ≠ sock.userId))) v t),
         (ps.filter (fun p => decide (p ≠ sock.userId))).map
           (fun p => ⟨.toRoom p, .participantLeft k sock.userId⟩)) := by
      simp [cleanupCall, CallSession.caller, CallSession.receiver, hu, hmem]
    refine ⟨?_, ?_⟩
    · rw [disconnect_activeCalls st sock now hbound, getStr_cleanupCalls _ _ _ hkeys, hget]
      simp only [Option.some_bind, hbody, List.length_eq_zero]
    · intro p
      rw [countTo_disconnect st sock now hbound,
        count_cleanupCalls _ _ k _ hkeys
          (fun k0 c h => participantLeft_not_elsewhere _ _ _ k0 c h), hget]
      simp only [hbody]
      exact count_participantLeft ps sock.userId p k
  · intro k call hget hc hr hps
    rw [disconnect_activeCalls st sock now hbound, getStr_cleanupCalls _ _ _ hkeys, hget]
    cases call with
    | direct caller receiver v t =>
        simp only [CallSession.caller, CallSession.receiver] at hc hr
        simp [cleanupCall, CallSession.caller, CallSession.receiver, hc, hr]
    | group chatId initiator ps v t =>
        have := hps ps rfl
        simp [cleanupCall, CallSession.caller, CallSession.receiver, hu, this]

/-- C3 (counterexample): B answered the group call of A twice, so the stored
participants are A, B, B; when A disconnects, B is sent `participant left`
twice, not once. -/
theorem disconnect_repeated_participant_counterexample :
    JsMap.getStr (run (Relay.init []) answeredTwice).activeCalls "group-G-5" =
        some (.group (.str "G") (.str "A") [.str "A", .str "B", .str "B"] (some true) 5) ∧
      countTo (step (run (Relay.init []) answeredTwice) (.event "sa" (.disconnect 9 true))).emits
        (.str "B") (.participantLeft "group-G-5" (.str "A")) = 2 := by
  decide

/-- C3 (witness): in the four-party call D disconnects; the group session
survives with A, B, C, each of them is sent `participant left` once, and the
direct session between C and B is untouched. -/
theorem disconnect_call_cleanup_witness :
    (JsMap.keys fourPartyCall.activeCalls).Nodup ∧
      JsMap.getStr (disconnect fourPartyCall ⟨"sd", .str "D", [.str "sd", .str "D"]⟩ 9
          true).relay.activeCalls "group-G-5" =
        some (.group (.str "G") (.str "A") [.str "A", .str "B", .str "C"] (some true) 5) ∧
      (∀ p, countTo (disconnect fourPartyCall ⟨"sd", .str "D", [.str "sd", .str "D"]⟩ 9
            true).emits p (.participantLeft "group-G-5" (.str "D")) =
          if p = .str "D" then 0 else [JsVal.str "A", .str "B", .str "C", .str "D"].count p) ∧
      JsMap.getStr (disconnect fourPartyCall ⟨"sd", .str "D", [.str "sd", .str "D"]⟩ 9
          true).relay.activeCalls "call-C-B-6" =
        some (.direct (.str "C") (.str "B") (some false) 6) :=
  have h := disconnect_call_cleanup fourPartyCall ⟨"sd", .str "D", [.str "sd", .str "D"]⟩ 9
    (by decide) (by decide)
  ⟨by decide,
   (h.2.1 "group-G-5" (.str "G") (.str "A") [.str "A", .str "B", .str "C", .str "D"]
      (some true) 5 (by decide) (by decide)).1,
   (h.2.1 "group-G-5" (.str "G") (.str "A") [.str "A", .str "B", .str "C", .str "D"]
      (some true) 5 (by decide) (by decide)).2,
   h.2.2 "call-C-B-6" (.direct (.str "C") (.str "B") (some false) 6) (by decide) (by decide)
     (by decide) (by decide)⟩

/-! ## Ending a call -/

/-- C4 (evaluation at the failing input): in the four-party group call B sends
`end call` with the callId of the group session; A, C and D are still
participants, yet afterwards the session is gone from `activeCalls`. -/
theorem group_end_call_deletes_session :
    JsMap.getStr fourPartyCall.activeCalls "group-G-5" =
        some (.group (.str "G") (.str "A") [.str "A", .str "B", .str "C", .str "D"]
          (some true) 5) ∧
      JsMap.getStr (step fourPartyCall (.event "sb" endByB)).relay.activeCalls "group-G-5" =
        none := by
  decide

theorem count_fanOut (ps : List JsVal) (userId p : JsVal) (payload : Payload)
    (hnd : ps.Nodup) :
    countTo (fanOut (some ps) userId payload) p payload =
      if p ∈ ps ∧ p ≠ userId then 1 else 0 := by
  have hinj : Function.Injective (fun q => (⟨.toRoom q, payload⟩ : Emit)) := by
    intro a b hab
    simpa using hab
  simp only [countTo, fanOut]
  rw [show (⟨.toRoom p, payload⟩ : Emit) = (fun q => (⟨.toRoom q, payload⟩ : Emit)) p from rfl,
    List.count_map_of_injective _ _ hinj]
  by_cases hp : p ∈ ps ∧ p ≠ userId
  · rw [if_pos hp]
    apply List.count_eq_one_of_mem (hnd.filter _)
    simp [List.mem_filter, hp.1, hp.2]
  · rw [if_neg hp]
    apply List.count_eq_zero_of_not_mem
    simpa [List.mem_filter] using hp

/-- C5: for an `end call` event with a participants list without repeats, every
emission is `call ended` with the given callId and `endedBy: userId`, addressed
to a listed participant other than `userId`; each such participant is addressed
exactly once and nobody else is; afterwards `activeCalls` has no entry for the
callId and every other entry is unchanged. -/
theorem end_call_fan_out (st : Relay) (callId userId : JsVal) (ps : List JsVal)
    (hnd : ps.Nodup) :
    (∀ e ∈ (endCall st ⟨callId, userId, some ps⟩).emits,
        e.payload = .callEnded callId userId none ∧
        ∃ p, p ∈ ps ∧ p ≠ userId ∧ e.target = .toRoom p) ∧
    (∀ p, countTo (endCall st ⟨callId, userId, some ps⟩).emits p
        (.callEnded callId userId none) = if p ∈ ps ∧ p ≠ userId then 1 else 0) ∧
    JsMap.get (endCall st ⟨callId, userId, some ps⟩).relay.activeCalls callId = none ∧
    (∀ k, JsVal.str k ≠ callId →
        JsMap.getStr (endCall st ⟨callId, userId, some ps⟩).relay.activeCalls k =
          JsMap.getStr st.activeCalls k) := by
  refine ⟨?_, ?_, ?_, ?_⟩
  · intro e he
    simp only [endCall, fanOut, List.mem_map, List.mem_filter] at he
    obtain ⟨p, ⟨hp, hne⟩, rfl⟩ := he
    exact ⟨rfl, p, hp, by simpa using hne, rfl⟩
  · intro p
    exact count_fanOut ps userId p _ hnd
  · cases callId with
    | undefined => rfl
    | null => rfl
    | str k => exact JsMap.getStr_deleteStr_self _ _
  · intro k hk
    cases callId with
    | undefined => rfl
    | null => rfl
    | str k0 =>
        have : k0 ≠ k := fun h => hk (by rw [h])
        exact JsMap.getStr_deleteStr_ne _ _ _ this

/-- C5 (witness): B ends the four-party call naming B, A and C. -/
theorem end_call_fan_out_witness :
    (∀ p, countTo (endCall fourPartyCall
          ⟨.str "group-G-5", .str "B", some [.str "B", .str "A", .str "C"]⟩).emits p
        (.callEnded (.str "group-G-5") (.str "B") none) =
          if p ∈ [JsVal.str "B", .str "A", .str "C"] ∧ p ≠ .str "B" then 1 else 0) ∧
      JsMap.getStr (endCall fourPartyCall
          ⟨.str "group-G-5", .str "B", some [.str "B", .str "A", .str "C"]⟩).relay.activeCalls
        "call-C-B-6" = JsMap.getStr fourPartyCall.activeCalls "call-C-B-6" :=
  have h := end_call_fan_out fourPartyCall (.str "group-G-5") (.str "B")
    [.str "B", .str "A", .str "C"] (by decide)
  ⟨h.2.1, h.2.2.2 "call-C-B-6" (by decide)⟩

/-! ## Invites -/

theorem JsMap.set_of_getStr_none {α : Type} (m : JsMap α) (k : String) (v : α)
    (h : JsMap.getStr m k = none) : JsMap.set m k v = m ++ [(k, v)] := by
  induction m with
  | nil => rfl
  | cons e rest ih =>
      obtain ⟨k0, v0⟩ := e
      by_cases h0 : k0 = k
      · simp [JsMap.getStr, h0] at h
      · simp only [JsMap.getStr, h0, if_false] at h
        simp [JsMap.set, h0, ih h]

/-- C6 (as amended): a non-group `call user` event from A naming B emits exactly
one `incoming call`, to the room of B, with the minted callId and the signal
unchanged, stores under the minted callId the session (caller A, receiver B,
not a group, the given isVideo) and leaves every entry under another key
unchanged; when the minted callId is not yet a key, exactly that one session is
added and all existing sessions are unchanged. -/
theorem direct_invite_effect (st : Relay) (d : CallUserData) (now startTime : Nat)
    (hdirect : d.isGroup = false) :
    (callUser st d now startTime).emits =
        [⟨.toRoom d.userToCall, .incomingCall d.signalData d.sender d.callerName d.callerAvatar
          d.isVideo false (directCallId d.sender d.userToCall now) none⟩] ∧
    JsMap.getStr (callUser st d now startTime).relay.activeCalls
        (directCallId d.sender d.userToCall now) =
        some (.direct d.sender d.userToCall d.isVideo startTime) ∧
    (∀ k, k ≠ directCallId d.sender d.userToCall now →
        JsMap.getStr (callUser st d now startTime).relay.activeCalls k = JsMap.getStr st.activeCalls k) ∧
    (JsMap.getStr st.activeCalls (directCallId d.sender d.userToCall now) = none →
        (callUser st d now startTime).relay.activeCalls =
          st.activeCalls ++ [(directCallId d.sender d.userToCall now,
            .direct d.sender d.userToCall d.isVideo startTime)]) := by
  refine ⟨?_, ?_, ?_, ?_⟩
  · simp [callUser, hdirect]
  · simp only [callUser, hdirect, Bool.false_eq_true, if_false]
    exact JsMap.getStr_set_self _ _ _
  · intro k hk
    simp only [callUser, hdirect, Bool.false_eq_true, if_false]
    exact JsMap.getStr_set_ne _ _ _ _ (fun h => hk h.symm)
  · intro hfresh
    simp only [callUser, hdirect, Bool.false_eq_true, if_false]
    exact JsMap.set_of_getStr_none _ _ _ hfresh

/-- C6 (witness): A invites B while the four-party call is running; the
handler reads the clock as 7 for the callId and as 8 for the start time. -/
theorem direct_invite_effect_witness :
    (callUser fourPartyCall (inviteAB true) 7 8).relay.activeCalls =
      fourPartyCall.activeCalls ++
        [("call-A-B-7", .direct (.str "A") (.str "B") (some true) 8)] :=
  (direct_invite_effect fourPartyCall (inviteAB true) 7 8 rfl).2.2.2 (by decide)

/-- C6 (counterexample): A invites B with video at clock 100 and again, audio
only, at the same clock value. The second invite adds no session and changes
the one stored by the first. -/
theorem direct_invite_same_clock_counterexample :
    (callUser (Relay.init []) (inviteAB true) 100 100).relay.activeCalls =
        [("call-A-B-100", .direct (.str "A") (.str "B") (some true) 100)] ∧
      (callUser (callUser (Relay.init []) (inviteAB true) 100 100).relay (inviteAB false)
          100 100).relay.activeCalls =
        [("call-A-B-100", .direct (.str "A") (.str "B") (some false) 100)] := by
  decide

/-- C7 (evaluation at the failing input): A starts a group call on chat G whose
users are A, B and C; the peers for B and C signal `offer-B` and `offer-C`,
handled at clocks 100 and 101. The relay stores two sessions, and B and C are
each sent two `incoming call` events, one carrying the offer of the peer opened
for the other target. -/
theorem group_start_call_fans_out_every_offer :
    JsMap.keys (groupCallStart userA [userA, userB, userC] (.str "G") 100).1.activeCalls =
        ["group-G-100", "group-G-101"] ∧
      (groupCallStart userA [userA, userB, userC] (.str "G") 100).2 =
        [⟨.toRoom (.str "B"), .incomingCall "offer-B" (.str "A") (.str "Ann") .null (some true)
            true "group-G-100" (some (.str "G"))⟩,
         ⟨.toRoom (.str "C"), .incomingCall "offer-B" (.str "A") (.str "Ann") .null (some true)
            true "group-G-100" (some (.str "G"))⟩,
         ⟨.toRoom (.str "B"), .incomingCall "offer-C" (.str "A") (.str "Ann") .null (some true)
            true "group-G-101" (some (.str "G"))⟩,
         ⟨.toRoom (.str "C"), .incomingCall "offer-C" (.str "A") (.str "Ann") .null (some true)
            true "group-G-101" (some (.str "G"))⟩] := by
  decide

/-! ## Answers -/

/-- C9: an `answer call` event emits exactly one `call accepted`, to the room
named by `to`, with signal, callId and userId (and name, avatar) unchanged; a
group session named by callId gets the answering userId appended to its
participants; a direct session and every session under another key are
unchanged, no session appears, and nothing else in the relay changes. -/
theorem answer_call_effect (st : Relay) (d : AnswerData) :
    (answerCall st d).emits =
        [⟨.toRoom d.to_, .callAccepted d.signal d.callId d.userId d.userName d.userAvatar⟩] ∧
    (∀ k chatId initiator ps v t, d.callId = .str k →
        JsMap.getStr st.activeCalls k = some (.group chatId initiator ps v t) →
        JsMap.getStr (answerCall st d).relay.activeCalls k =
          some (.group chatId initiator (ps ++ [d.userId]) v t)) ∧
    (∀ k call, JsMap.getStr st.activeCalls k = some call →
        call.isGroup = false ∨ d.callId ≠ .str k →
        JsMap.getStr (answerCall st d).relay.activeCalls k = some call) ∧
    (∀ k, JsMap.getStr st.activeCalls k = none →
        JsMap.getStr (answerCall st d).relay.activeCalls k = none) ∧
    (answerCall st d).relay.typingUsers = st.typingUsers ∧
    (answerCall st d).relay.sockets = st.sockets ∧
    (answerCall st d).relay.users = st.users := by
  have key : ∀ k, JsMap.getStr (answerCall st d).relay.activeCalls k =
      if d.callId = .str k then (JsMap.getStr st.activeCalls k).map
        (fun call => if call.isGroup then call.push d.userId else call)
      else JsMap.getStr st.activeCalls k := by
    intro k
    cases hc : d.callId with
    | undefined => simp [answerCall, hc]
    | null => simp [answerCall, hc]
    | str k0 =>
        cases hg : JsMap.getStr st.activeCalls k0 with
        | none =>
            by_cases hk : k0 = k
            · subst hk; simp [answerCall, hc, JsMap.get, hg]
            · simp [answerCall, hc, JsMap.get, hg, hk]
        | some call =>
            cases hgr : call.isGroup
            · by_cases hk : k0 = k
              · subst hk; simp [answerCall, hc, JsMap.get, hg, hgr]
              · simp [answerCall, hc, JsMap.get, hg, hgr, hk]
            · by_cases hk : k0 = k
              · subst hk
                simp [answerCall, hc, JsMap.get, hg, hgr, JsMap.getStr_set_self]
              · simp [answerCall, hc, JsMap.get, hg, hgr, hk, JsMap.getStr_set_ne _ _ _ _ hk]
  refine ⟨rfl, ?_, ?_, ?_, rfl, rfl, rfl⟩
  · intro k chatId initiator ps v t hid hget
    rw [key k, if_pos hid, hget]
    rfl
  · intro k call hget hor
    rw [key k, hget]
    rcases hor with h | h
    · simp [h]
    · simp [h]
  · intro k hget
    rw [key k, hget]
    simp

/-- C10 (as amended): an `answer call` for a callId that has already been
answered is forwarded like the first one: the relay emits exactly one
`call accepted` to the room named by `to` and nothing else, in particular no
notice to the late responder. -/
theorem repeated_answer_forwarded (st : Relay) (first second : AnswerData)
    (hsame : second.callId = first.callId) :
    (answerCall (answerCall st first).relay second).emits =
      [⟨.toRoom second.to_, .callAccepted second.signal first.callId second.userId
        second.userName second.userAvatar⟩] := by
  rw [← hsame]
  rfl

/-- C10 (witness): B answers the call of A twice. -/
theorem repeated_answer_forwarded_witness :
    (answerCall (answerCall (callUser (Relay.init []) (inviteAB true) 100 100).relay
        answerAB).relay answerAB).emits =
      [⟨.toRoom (.str "A"), .callAccepted "answer" (.str "call-A-B-100") (.str "B") (.str "Bob")
        .null⟩] :=
  repeated_answer_forwarded (callUser (Relay.init []) (inviteAB true) 100 100).relay answerAB
    answerAB rfl

/-- C10 (counterexample): A invites B at clock 100 and B answers twice. The
second answer is again forwarded to A as `call accepted`, and nothing is sent
to B. -/
theorem repeated_answer_counterexample :
    runEmits (callUser (Relay.init []) (inviteAB true) 100 100).relay
        [.connect "sb", .event "sb" (.answerCall answerAB), .event "sb" (.answerCall answerAB)] =
      [⟨.toRoom (.str "A"), .callAccepted "answer" (.str "call-A-B-100") (.str "B") (.str "Bob")
          .null⟩,
       ⟨.toRoom (.str "A"), .callAccepted "answer" (.str "call-A-B-100") (.str "B") (.str "Bob")
          .null⟩] := by
  decide

/-! ## Call identifiers -/

theorem digitChar_lt_ten (m : Nat) (h : m < 10) :
    (Nat.digitChar m).toNat - 48 = m ∧ Nat.digitChar m ≠ '-' := by
  interval_cases m <;> exact ⟨by decide, by decide⟩

theorem toDigitsCore_spec (fuel : Nat) : ∀ (n : Nat) (ds : List Char), n < fuel →
    ∃ X : List Char, Nat.toDigitsCore 10 fuel n ds = X ++ ds ∧
      X.foldl (fun acc c => acc * 10 + (c.toNat - 48)) 0 = n ∧ ∀ c ∈ X, c ≠ '-' := by
  induction fuel with
  | zero => intro n ds h; omega
  | succ fuel ih =>
      intro n ds h
      have hd := digitChar_lt_ten (n % 10) (Nat.mod_lt _ (by decide))
      by_cases h0 : n / 10 = 0
      · refine ⟨[Nat.digitChar (n % 10)], ?_, ?_, ?_⟩
        · simp [Nat.toDigitsCore, h0]
        · simp only [List.foldl_cons, List.foldl_nil, hd.1]
          omega
        · intro c hc
          simp only [List.mem_singleton] at hc
          rw [hc]; exact hd.2
      · have hlt : n / 10 < fuel := by omega
        obtain ⟨X, hX, hval, hdash⟩ := ih (n / 10) (Nat.digitChar (n % 10) :: ds) hlt
        refine ⟨X ++ [Nat.digitChar (n % 10)], ?_, ?_, ?_⟩
        · simp [Nat.toDigitsCore, h0, hX]
        · simp only [List.foldl_append, List.foldl_cons, List.foldl_nil, hval, hd.1]
          omega
        · intro c hc
          simp only [List.mem_append, List.mem_singleton] at hc
          rcases hc with hc | hc
          · exact hdash c hc
          · rw [hc]; exact hd.2

theorem toDigits_no_dash (n : Nat) : '-' ∉ Nat.toDigits 10 n := by
  obtain ⟨X, hX, _, hdash⟩ := toDigitsCore_spec (n + 1) n [] (Nat.lt_succ_self n)
  intro hmem
  rw [Nat.toDigits, hX, List.append_nil] at hmem
  exact hdash _ hmem rfl

theorem toDigits_injective (a b : Nat) (h : Nat.toDigits 10 a = Nat.toDigits 10 b) : a = b := by
  obtain ⟨X, hX, hval, _⟩ := toDigitsCore_spec (a + 1) a [] (Nat.lt_succ_self a)
  obtain ⟨Y, hY, hval', _⟩ := toDigitsCore_spec (b + 1) b [] (Nat.lt_succ_self b)
  rw [Nat.toDigits, hX, Nat.toDigits, hY, List.append_nil, List.append_nil] at h
  rw [← hval, ← hval', h]

theorem suffix_after_dash : ∀ (l1 l2 d1 d2 : List Char), '-' ∉ d1 → '-' ∉ d2 →
    l1 ++ '-' :: d1 = l2 ++ '-' :: d2 → d1 = d2 := by
  intro l1
  induction l1 with
  | nil =>
      intro l2 d1 d2 h1 _ h
      cases l2 with
      | nil => simpa using h
      | cons c l2 =>
          simp only [List.nil_append, List.cons_append, List.cons.injEq] at h
          exact absurd (by rw [h.2]; simp) h1
  | cons c l1 ih =>
      intro l2 d1 d2 h1 h2 h
      cases l2 with
      | nil =>
          simp only [List.nil_append, List.cons_append, List.cons.injEq] at h
          exact absurd (by rw [← h.2]; simp) h2
      | cons c' l2 =>
          simp only [List.cons_append, List.cons.injEq] at h
          exact ih l2 d1 d2 h1 h2 h.2

/-- Two keys that end with a dash and a decimal number are equal only if the
numbers are. -/
theorem clock_of_key (p q : String) (t n : Nat)
    (h : p ++ "-" ++ toString t = q ++ "-" ++ toString n) : t = n := by
  have hd := congrArg String.data h
  simp only [String.data_append] at hd
  have ht : (toString t).data = Nat.toDigits 10 t := rfl
  have hn : (toString n).data = Nat.toDigits 10 n := rfl
  have hdash : ("-" : String).data = ['-'] := rfl
  simp only [ht, hn, hdash, List.append_assoc, List.singleton_append] at hd
  exact toDigits_injective t n
    (suffix_after_dash _ _ _ _ (toDigits_no_dash t) (toDigits_no_dash n) hd)

theorem JsMap.mem_set {α : Type} (m : JsMap α) (k : String) (v : α) (e : String × α)
    (h : e ∈ JsMap.set m k v) : e ∈ m ∨ e = (k, v) := by
  induction m with
  | nil => simpa [JsMap.set] using h
  | cons x rest ih =>
      obtain ⟨k0, v0⟩ := x
      by_cases h0 : k0 = k
      · simp only [JsMap.set, h0, if_true, List.mem_cons] at h
        rcases h with h | h
        · exact Or.inr h
        · exact Or.inl (List.mem_cons_of_mem _ h)
      · simp only [JsMap.set, h0, if_false, List.mem_cons] at h
        rcases h with h | h
        · exact Or.inl (by rw [h]; exact List.mem_cons_self _ _)
        · rcases ih h with h | h
          · exact Or.inl (List.mem_cons_of_mem _ h)
          · exact Or.inr h

theorem JsMap.mem_of_getStr {α : Type} (m : JsMap α) (k : String) (v : α)
    (h : JsMap.getStr m k = some v) : (k, v) ∈ m := by
  induction m with
  | nil => simp [JsMap.getStr] at h
  | cons x rest ih =>
      obtain ⟨k0, v0⟩ := x
      by_cases h0 : k0 = k
      · simp only [JsMap.getStr, h0, if_true, Option.some.injEq] at h
        rw [h0, h]; exact List.mem_cons_self _ _
      · simp only [JsMap.getStr, h0, if_false] at h
        exact List.mem_cons_of_mem _ (ih h)

/-! ## Keys of `activeCalls` are unique in every reachable state -/

theorem JsMap.keys_set_nodup {α : Type} (m : JsMap α) (k : String) (v : α)
    (h : (JsMap.keys m).Nodup) : (JsMap.keys (JsMap.set m k v)).Nodup := by
  induction m with
  | nil => simp [JsMap.set, JsMap.keys]
  | cons x rest ih =>
      obtain ⟨k0, v0⟩ := x
      simp only [JsMap.keys, List.map_cons, List.nodup_cons] at h
      by_cases h0 : k0 = k
      · subst h0
        simp only [JsMap.set, if_true, JsMap.keys, List.map_cons, List.nodup_cons]
        exact h
      · simp only [JsMap.set, h0, if_false, JsMap.keys, List.map_cons, List.nodup_cons]
        refine ⟨?_, ih h.2⟩
        intro hmem
        obtain ⟨e, he, hk⟩ := List.mem_map.mp hmem
        rcases JsMap.mem_set rest k v e he with h1 | h1
        · exact h.1 (List.mem_map.mpr ⟨e, h1, hk⟩)
        · rw [h1] at hk; exact h0 hk.symm

theorem JsMap.keys_delete_nodup {α : Type} (m : JsMap α) (k : JsVal)
    (h : (JsMap.keys m).Nodup) : (JsMap.keys (JsMap.delete m k)).Nodup := by
  cases k with
  | undefined => exact h
  | null => exact h
  | str s => exact h.sublist ((List.filter_sublist m).map Prod.fst)

theorem cleanupCalls_keys_sublist (u : JsVal) (m : JsMap CallSession) :
    (JsMap.keys (cleanupCalls u m).1).Sublist (JsMap.keys m) := by
  induction m with
  | nil => exact List.Sublist.refl _
  | cons x rest ih =>
      obtain ⟨k0, c0⟩ := x
      simp only [cleanupCalls]
      cases (cleanupCall u k0 c0).1 with
      | none => exact ih.cons _
      | some c1 => exact ih.cons₂ _

theorem handle_keys_nodup (st : Relay) (sock : Socket) (ev : Event)
    (h : (JsMap.keys st.activeCalls).Nodup) :
    (JsMap.keys (handle st sock ev).relay.activeCalls).Nodup := by
  cases ev
  case callUser d now =>
    simp only [handle, callUser]
    split
    · split <;> exact JsMap.keys_set_nodup _ _ _ h
    · exact JsMap.keys_set_nodup _ _ _ h
  case answerCall d =>
    simp only [handle, answerCall]
    split
    · split
      · exact JsMap.keys_set_nodup _ _ _ h
      · exact h
    · exact h
  case rejectCall d =>
    simp only [handle, rejectCall]
    split
    · split
      · exact JsMap.keys_delete_nodup _ _ h
      · exact h
    · exact h
  case endCall d => exact JsMap.keys_delete_nodup _ _ h
  case disconnect now dbOk =>
    simp only [handle, disconnect]
    split
    · split
      · exact h.sublist (cleanupCalls_keys_sublist _ _)
      · exact h
    · exact h
  case setup userId now dbOk => cases dbOk <;> exact h
  case newMessage m l =>
    simp only [handle, newMessage]
    split <;> exact h
  all_goals exact h

theorem step_keys_nodup (st : Relay) (i : Input) (h : (JsMap.keys st.activeCalls).Nodup) :
    (JsMap.keys (step st i).relay.activeCalls).Nodup := by
  cases i with
  | connect sid =>
      simp only [step, connection]
      split <;> exact h
  | event sid ev =>
      simp only [step]
      split
      · exact handle_keys_nodup st _ ev h
      · exact h

/-- Along every run from a state whose call keys are pairwise different, the
keys of `activeCalls` stay pairwise different. -/
theorem run_keys_nodup (st : Relay) (inputs : List Input)
    (h : (JsMap.keys st.activeCalls).Nodup) :
    (JsMap.keys (run st inputs).activeCalls).Nodup := by
  induction inputs generalizing st with
  | nil => exact h
  | cons i rest ih => exact ih _ (step_keys_nodup st i h)

/-! ## Keys of `activeCalls` carry the clock reading that minted them -/

theorem JsMap.mem_keys_set {α : Type} (m : JsMap α) (k : String) (v : α) (k1 : String)
    (h : k1 ∈ JsMap.keys (JsMap.set m k v)) : k1 ∈ JsMap.keys m ∨ k1 = k := by
  obtain ⟨e, he, hk⟩ := List.mem_map.mp h
  rcases JsMap.mem_set m k v e he with h1 | h1
  · exact Or.inl (List.mem_map.mpr ⟨e, h1, hk⟩)
  · rw [h1] at hk; exact Or.inr hk.symm

theorem JsMap.mem_keys_delete {α : Type} (m : JsMap α) (k : JsVal) (k1 : String)
    (h : k1 ∈ JsMap.keys (JsMap.delete m k)) : k1 ∈ JsMap.keys m := by
  cases k with
  | undefined => exact h
  | null => exact h
  | str s => exact ((List.filter_sublist m).map Prod.fst).subset h

theorem keysMintedAt_of_sub (st st1 : Relay) (clocks : List Nat) (h : st.keysMintedAt clocks)
    (hsub : ∀ k ∈ JsMap.keys st1.activeCalls, k ∈ JsMap.keys st.activeCalls) :
    st1.keysMintedAt clocks :=
  fun k hk => h k (hsub k hk)

theorem keysMintedAt_mono (st : Relay) (clocks more : List Nat) (h : st.keysMintedAt clocks) :
    st.keysMintedAt (clocks ++ more) := by
  intro k hk
  obtain ⟨p, n, hn, hp⟩ := h k hk
  exact ⟨p, n, List.mem_append_left _ hn, hp⟩

/-- The handler of `call user` adds at most the key it mints from its first
clock reading. -/
theorem callUser_keys (st : Relay) (d : CallUserData) (now startTime : Nat) (k : String)
    (h : k ∈ JsMap.keys (callUser st d now startTime).relay.activeCalls) :
    k ∈ JsMap.keys st.activeCalls ∨ ∃ p : String, k = p ++ "-" ++ toString now := by
  unfold callUser at h
  split at h
  · have h1 : k ∈ JsMap.keys (JsMap.set st.activeCalls (groupCallId d.chatId now)
        (.group d.chatId d.sender [d.sender] d.isVideo startTime)) := by
      split at h <;> exact h
    rcases JsMap.mem_keys_set _ _ _ _ h1 with h2 | h2
    · exact Or.inl h2
    · exact Or.inr ⟨_, h2⟩
  · rcases JsMap.mem_keys_set _ _ _ _ h with h2 | h2
    · exact Or.inl h2
    · exact Or.inr ⟨_, h2⟩

/-- No handler other than `call user` adds a key to `activeCalls`. -/
theorem handle_keys (st : Relay) (sock : Socket) (ev : Event) (k : String)
    (h : k ∈ JsMap.keys (handle st sock ev).relay.activeCalls) :
    k ∈ JsMap.keys st.activeCalls ∨
      ∃ (p : String) (n : Nat), n ∈ (Input.event sock.id ev).mintClock ∧
        k = p ++ "-" ++ toString n := by
  cases ev
  case callUser d now startTime =>
    rcases callUser_keys st d now startTime k h with h1 | ⟨p, hp⟩
    · exact Or.inl h1
    · exact Or.inr ⟨p, now, by simp [Input.mintClock], hp⟩
  case answerCall d =>
    left
    simp only [handle, answerCall] at h
    split at h
    · rename_i k0 call hk hget
      split at h
      · rcases JsMap.mem_keys_set _ _ _ _ h with h1 | h1
        · exact h1
        · have hmem := JsMap.mem_of_getStr st.activeCalls k0 call (by rw [← hget, hk]; rfl)
          rw [h1]
          exact List.mem_map.mpr ⟨_, hmem, rfl⟩
      · exact h
    · exact h
  case rejectCall d =>
    left
    simp only [handle, rejectCall] at h
    split at h
    · split at h
      · exact JsMap.mem_keys_delete _ _ _ h
      · exact h
    · exact h
  case endCall d => exact Or.inl (JsMap.mem_keys_delete _ _ _ h)
  case disconnect now dbOk =>
    left
    simp only [handle, disconnect] at h
    split at h
    · split at h
      · exact (cleanupCalls_keys_sublist _ _).subset h
      · exact h
    · exact h
  case setup userId now dbOk =>
    left
    cases dbOk <;> exact h
  case newMessage m l =>
    left
    simp only [handle, newMessage] at h
    split at h <;> exact h
  all_goals exact Or.inl h

theorem step_keysMintedAt (st : Relay) (i : Input) (clocks : List Nat)
    (h : st.keysMintedAt clocks) : (step st i).relay.keysMintedAt (clocks ++ i.mintClock) := by
  cases i with
  | connect sid =>
      apply keysMintedAt_mono
      apply keysMintedAt_of_sub st _ clocks h
      intro k hk
      simp only [step, connection] at hk
      split at hk <;> exact hk
  | event sid ev =>
      simp only [step]
      split
      · rename_i sock hsock
        intro k hk
        rcases handle_keys st sock ev k hk with h1 | ⟨p, n, hn, hp⟩
        · obtain ⟨p, n, hn, hp⟩ := h k h1
          exact ⟨p, n, List.mem_append_left _ hn, hp⟩
        · refine ⟨p, n, List.mem_append_right _ ?_, hp⟩
          cases ev <;> exact hn
      · exact keysMintedAt_mono st _ _ h

theorem run_keysMintedAt (st : Relay) (inputs : List Input) (clocks : List Nat)
    (h : st.keysMintedAt clocks) : (run st inputs).keysMintedAt (clocks ++ mintClocks inputs) := by
  induction inputs generalizing st clocks with
  | nil => exact keysMintedAt_mono st _ _ h
  | cons i rest ih =>
      have h1 := ih _ _ (step_keysMintedAt st i clocks h)
      rw [List.append_assoc] at h1
      exact h1

/-- C8 (as amended): in every state reachable from a freshly started relay, an
invite whose callId clock reading (the `Date.now()` inside the callId template
literal) differs from the callId clock reading of every earlier invite mints a
callId, group or one-on-one and for all values of from, userToCall and chatId,
that is not a key of `activeCalls`; storing the new session then appends one
entry and leaves every existing entry as it was. -/
theorem invite_call_id_fresh (users : JsMap Presence) (inputs : List Input) (now : Nat)
    (hclock : now ∉ mintClocks inputs) :
    (∀ chatId, JsMap.getStr (run (Relay.init users) inputs).activeCalls
        (groupCallId chatId now) = none) ∧
    (∀ sender userToCall, JsMap.getStr (run (Relay.init users) inputs).activeCalls
        (directCallId sender userToCall now) = none) ∧
    (∀ (d : CallUserData) (startTime : Nat),
        (callUser (run (Relay.init users) inputs) d now startTime).relay.activeCalls =
          (run (Relay.init users) inputs).activeCalls ++
            [if d.isGroup then
               (groupCallId d.chatId now,
                 CallSession.group d.chatId d.sender [d.sender] d.isVideo startTime)
             else
               (directCallId d.sender d.userToCall now,
                 CallSession.direct d.sender d.userToCall d.isVideo startTime)]) := by
  have hinit : (Relay.init users).keysMintedAt [] := by
    intro k hk
    simp [Relay.init, JsMap.keys] at hk
  have hinv : (run (Relay.init users) inputs).keysMintedAt (mintClocks inputs) := by
    have h := run_keysMintedAt _ inputs [] hinit
    rwa [List.nil_append] at h
  have key : ∀ q : String, JsMap.getStr (run (Relay.init users) inputs).activeCalls
      (q ++ "-" ++ toString now) = none := by
    intro q
    apply JsMap.getStr_eq_none_of_not_mem
    intro hmem
    obtain ⟨p, n, hn, hp⟩ := hinv _ hmem
    have hnow : now = n := clock_of_key q p now n hp
    exact hclock (hnow ▸ hn)
  refine ⟨fun chatId => key _, fun sender userToCall => key _, ?_⟩
  intro d startTime
  cases hg : d.isGroup with
  | true =>
      have hset := JsMap.set_of_getStr_none (run (Relay.init users) inputs).activeCalls
        (groupCallId d.chatId now)
        (CallSession.group d.chatId d.sender [d.sender] d.isVideo startTime) (key _)
      simp only [callUser, hg, if_true]
      cases hps : d.participants <;> exact hset
  | false =>
      have hset := JsMap.set_of_getStr_none (run (Relay.init users) inputs).activeCalls
        (directCallId d.sender d.userToCall now)
        (CallSession.direct d.sender d.userToCall d.isVideo startTime) (key _)
      simp only [callUser, hg, Bool.false_eq_true, if_false]
      exact hset

/-- C8 (witness): A invites B; the handler reads the clock as 100 for the callId
and as 101 for the start time. An invite whose callId clock reading is 101
mints a fresh callId. -/
theorem invite_call_id_fresh_witness :
    JsMap.getStr (run (Relay.init [])
        [.connect "sa", .event "sa" (.callUser (inviteAB true) 100 101)]).activeCalls
      (directCallId (.str "A") (.str "B") 101) = none :=
  (invite_call_id_fresh [] [.connect "sa", .event "sa" (.callUser (inviteAB true) 100 101)] 101
    (by decide)).2.1 (.str "A") (.str "B")

/-- C8 (counterexample): A and C both start a group call on chat G and both
invites are handled at clock 100. The second invite mints the callId under
which the first session is stored, and storing it overwrites that session. -/
theorem call_id_collision_counterexample :
    JsMap.getStr (callUser (Relay.init []) (inviteGroupG "A") 100 100).relay.activeCalls
        (groupCallId (inviteGroupG "C").chatId 100) =
        some (.group (.str "G") (.str "A") [.str "A"] (some true) 100) ∧
      (callUser (callUser (Relay.init []) (inviteGroupG "A") 100 100).relay (inviteGroupG "C")
          100 100).relay.activeCalls =
        [("group-G-100", .group (.str "G") (.str "C") [.str "C"] (some true) 100)] := by
  decide

/-- C9 (witness): B answers the group call `group-G-5` of A and is appended to
its participants. -/
theorem answer_call_effect_witness :
    JsMap.getStr (answerCall
        (callUser (Relay.init []) (inviteGroupG "A") 5 5).relay
        { signal := "answer", to_ := .str "A", callId := .str "group-G-5", userId := .str "B",
          userName := .str "Bob", userAvatar := .null }).relay.activeCalls "group-G-5" =
      some (.group (.str "G") (.str "A") ([.str "A"] ++ [.str "B"]) (some true) 5) :=
  (answer_call_effect (callUser (Relay.init []) (inviteGroupG "A") 5 5).relay
    { signal := "answer", to_ := .str "A", callId := .str "group-G-5", userId := .str "B",
      userName := .str "Bob", userAvatar := .null }).2.1 "group-G-5" (.str "G") (.str "A")
    [.str "A"] (some true) 5 rfl (by decide)

/-! ## Participants of group sessions -/

theorem mem_cleanupCalls_body (u : JsVal) (m : JsMap CallSession) (e : String × CallSession)
    (h : e ∈ (cleanupCalls u m).1) :
    ∃ c, (e.1, c) ∈ m ∧ (cleanupCall u e.1 c).1 = some e.2 := by
  induction m with
  | nil => simp [cleanupCalls] at h
  | cons x rest ih =>
      obtain ⟨k0, c0⟩ := x
      simp only [cleanupCalls] at h
      cases hh : (cleanupCall u k0 c0).1 with
      | none =>
          rw [hh] at h
          obtain ⟨c, hc, hb⟩ := ih h
          exact ⟨c, List.mem_cons_of_mem _ hc, hb⟩
      | some c1 =>
          rw [hh] at h
          simp only [List.mem_cons] at h
          rcases h with h | h
          · subst h
            exact ⟨c0, List.mem_cons_self _ _, hh⟩
          · obtain ⟨c, hc, hb⟩ := ih h
            exact ⟨c, List.mem_cons_of_mem _ hc, hb⟩

theorem cleanupCall_participants (u : JsVal) (k : String) (c c1 : CallSession)
    (h : (cleanupCall u k c).1 = some c1) (ps1 : List JsVal)
    (h1 : c1.participants = some ps1) :
    ∃ ps, c.participants = some ps ∧ ps1.Sublist ps := by
  cases c with
  | direct a b v t =>
      unfold cleanupCall at h
      split at h
      · simp at h
      · simp only [Option.some.injEq] at h
        subst h
        exact ⟨ps1, h1, List.Sublist.refl _⟩
  | group chatId initiator ps v t =>
      unfold cleanupCall at h
      split at h
      · simp at h
      · simp only at h
        split at h
        · simp only at h
          split at h
          · simp at h
          · simp only [Option.some.injEq] at h
            subst h
            simp only [CallSession.participants, Option.some.injEq] at h1
            subst h1
            exact ⟨ps, rfl, List.filter_sublist ps⟩
        · simp only [Option.some.injEq] at h
          subst h
          exact ⟨ps1, h1, List.Sublist.refl _⟩

theorem participantsNodup_of_sub (st st1 : Relay) (h : st.participantsNodup)
    (hsub : ∀ e ∈ st1.activeCalls, e ∈ st.activeCalls) : st1.participantsNodup :=
  fun e he => h e (hsub e he)

theorem callUser_participantsNodup (st : Relay) (d : CallUserData) (now startTime : Nat)
    (h : st.participantsNodup) : (callUser st d now startTime).relay.participantsNodup := by
  intro e he ps hps
  have hcases : e ∈ st.activeCalls ∨ e.2.participants = some [d.sender] ∨
      e.2.participants = none := by
    unfold callUser at he
    split at he
    · have he' : e ∈ JsMap.set st.activeCalls (groupCallId d.chatId now)
          (.group d.chatId d.sender [d.sender] d.isVideo startTime) := by
        split at he <;> exact he
      rcases JsMap.mem_set _ _ _ _ he' with h1 | h1
      · exact Or.inl h1
      · rw [h1]; exact Or.inr (Or.inl rfl)
    · rcases JsMap.mem_set _ _ _ _ he with h1 | h1
      · exact Or.inl h1
      · rw [h1]; exact Or.inr (Or.inr rfl)
  rcases hcases with h1 | h1 | h1
  · exact h e h1 ps hps
  · rw [h1] at hps
    simp only [Option.some.injEq] at hps
    rw [← hps]; exact List.nodup_singleton _
  · rw [h1] at hps; simp at hps

theorem answerCall_participantsNodup (st : Relay) (sid : String) (d : AnswerData)
    (hopen : (st.findSocket sid).isSome)
    (h : st.participantsNodup) (hfirst : answerIsFirst st (.event sid (.answerCall d)) = true) :
    (answerCall st d).relay.participantsNodup := by
  intro e he ps hps
  unfold answerCall at he
  simp only at he
  split at he
  · rename_i k call hk hget
    split at he
    · rcases JsMap.mem_set _ _ _ _ he with h1 | h1
      · exact h e h1 ps hps
      · rw [hk] at hget
        have hmem := JsMap.mem_of_getStr st.activeCalls k call hget
        cases call with
        | direct a b v t => rw [h1] at hps; simp [CallSession.push, CallSession.participants] at hps
        | group chatId initiator ps0 v t =>
            rw [h1] at hps
            simp only [CallSession.push, CallSession.participants, Option.some.injEq] at hps
            have hnd : ps0.Nodup := h _ hmem ps0 rfl
            obtain ⟨s, hs⟩ := Option.isSome_iff_exists.mp hopen
            simp only [JsMap.get] at hget
            have hnot : d.userId ∉ ps0 := by
              simpa [answerIsFirst, hs, hk, JsMap.get, hget] using hfirst
            rw [← hps]
            exact List.Nodup.append hnd (List.nodup_singleton _)
              (by
                intro a ha hb
                simp only [List.mem_singleton] at hb
                exact hnot (hb ▸ ha))
    · exact h e he ps hps
  · exact h e he ps hps

theorem delete_participantsNodup (st : Relay) (k : JsVal) (h : st.participantsNodup) :
    ∀ e ∈ JsMap.delete st.activeCalls k, ∀ ps, e.2.participants = some ps → ps.Nodup := by
  intro e he
  cases k with
  | str s => exact h e (List.mem_filter.mp he).1
  | undefined => exact h e he
  | null => exact h e he

theorem disconnect_participantsNodup (st : Relay) (sock : Socket) (now : Nat) (dbOk : Bool)
    (h : st.participantsNodup) : (disconnect st sock now dbOk).relay.participantsNodup := by
  intro e he ps hps
  unfold disconnect at he
  simp only at he
  split at he
  · split at he
    · obtain ⟨c, hc, hb⟩ := mem_cleanupCalls_body _ _ _ he
      obtain ⟨ps0, hps0, hsub⟩ := cleanupCall_participants _ _ _ _ hb ps hps
      exact (h _ hc ps0 hps0).sublist hsub
    · exact h e he ps hps
  · exact h e he ps hps

theorem step_participantsNodup (st : Relay) (i : Input) (h : st.participantsNodup)
    (hfirst : answerIsFirst st i = true) : (step st i).relay.participantsNodup := by
  cases i with
  | connect sid =>
      apply participantsNodup_of_sub st _ h
      intro e he
      simp only [step, connection] at he
      split at he <;> exact he
  | event sid ev =>
      cases hs : st.findSocket sid with
      | none => simpa [step, hs, Result.skip] using h
      | some sock =>
          simp only [step, hs]
          cases ev
          case callUser d now startTime => exact callUser_participantsNodup st d now startTime h
          case answerCall d =>
            exact answerCall_participantsNodup st sid d (by simp [hs]) h hfirst
          case rejectCall d =>
            intro e he
            simp only [handle, rejectCall] at he
            split at he
            · split at he
              · exact delete_participantsNodup st _ h e he
              · exact h e he
            · exact h e he
          case endCall d => exact delete_participantsNodup st _ h
          case disconnect now dbOk => exact disconnect_participantsNodup st sock now dbOk h
          case setup userId now dbOk =>
            apply participantsNodup_of_sub st _ h
            intro e he
            cases dbOk <;> exact he
          case newMessage m l =>
            apply participantsNodup_of_sub st _ h
            intro e he
            simp only [handle, newMessage] at he
            split at he <;> exact he
          all_goals exact h

theorem run_participantsNodup (st : Relay) (inputs : List Input) (h : st.participantsNodup)
    (hfirst : answersAreFirst st inputs = true) : (run st inputs).participantsNodup := by
  induction inputs generalizing st with
  | nil => exact h
  | cons i rest ih =>
      simp only [answersAreFirst, Bool.and_eq_true] at hfirst
      exact ih _ (step_participantsNodup st i h hfirst.1) hfirst.2

/-- C11 (as amended): in every relay state reached from a freshly started relay
by a sequence of inputs in which no `answer call` names a user already listed
in the participants of the session it answers, the participants list of every
group session contains no user id more than once. -/
theorem group_participants_nodup (users : JsMap Presence) (inputs : List Input)
    (hfirst : answersAreFirst (Relay.init users) inputs = true) :
    ∀ k chatId initiator ps v t,
      JsMap.getStr (run (Relay.init users) inputs).activeCalls k =
        some (.group chatId initiator ps v t) → ps.Nodup := by
  intro k chatId initiator ps v t hget
  have hinv : (run (Relay.init users) inputs).participantsNodup :=
    run_participantsNodup _ inputs (fun e he => by simp [Relay.init] at he) hfirst
  exact hinv _ (JsMap.mem_of_getStr _ _ _ hget) ps rfl

/-- C11 (witness): A invites on chat G at clock 5 and B answers once; the
session lists A and B, each once. -/
theorem group_participants_nodup_witness :
    answersAreFirst (Relay.init []) answeredOnce = true ∧
      JsMap.getStr (run (Relay.init []) answeredOnce).activeCalls "group-G-5" =
        some (.group (.str "G") (.str "A") [.str "A", .str "B"] (some true) 5) ∧
      [JsVal.str "A", .str "B"].Nodup :=
  ⟨by decide, by decide,
   group_participants_nodup [] answeredOnce (by decide)
     "group-G-5" (.str "G") (.str "A") [.str "A", .str "B"] (some true) 5 (by decide)⟩

/-- C11 (counterexample): B answers the group call of A twice; the stored
participants list is A, B, B, which holds B twice. -/
theorem group_participants_repeat_counterexample :
    JsMap.getStr (run (Relay.init []) answeredTwice).activeCalls "group-G-5" =
        some (.group (.str "G") (.str "A") [.str "A", .str "B", .str "B"] (some true) 5) ∧
      ¬ [JsVal.str "A", .str "B", .str "B"].Nodup := by
  decide

/-! ## Rejections -/

/-- C12 (as amended): a `reject call` event emits exactly one `call rejected`
with callId, reason and userId unchanged, to the room named by `to`; a direct
session named by callId is deleted; a group session named by callId is kept
unchanged, so every participant is retained, the rejecting user too if it was
listed; every session under another key is unchanged, no session appears, and
nothing else in the relay changes. -/
theorem reject_call_effect (st : Relay) (d : RejectData) :
    (rejectCall st d).emits = [⟨.toRoom d.to_, .callRejected d.callId d.reason d.userId⟩] ∧
    (∀ k caller receiver v t, d.callId = .str k →
        JsMap.getStr st.activeCalls k = some (.direct caller receiver v t) →
        JsMap.getStr (rejectCall st d).relay.activeCalls k = none) ∧
    (∀ k call, JsMap.getStr st.activeCalls k = some call →
        call.isGroup = true ∨ d.callId ≠ .str k →
        JsMap.getStr (rejectCall st d).relay.activeCalls k = some call) ∧
    (∀ k, JsMap.getStr st.activeCalls k = none →
        JsMap.getStr (rejectCall st d).relay.activeCalls k = none) ∧
    (rejectCall st d).relay.typingUsers = st.typingUsers ∧
    (rejectCall st d).relay.sockets = st.sockets ∧
    (rejectCall st d).relay.users = st.users := by
  have key : ∀ k, JsMap.getStr (rejectCall st d).relay.activeCalls k =
      if d.callId = .str k then (JsMap.getStr st.activeCalls k).bind
        (fun call => if call.isGroup then some call else none)
      else JsMap.getStr st.activeCalls k := by
    intro k
    cases hc : d.callId with
    | undefined => simp [rejectCall, hc, JsMap.get]
    | null => simp [rejectCall, hc, JsMap.get]
    | str k0 =>
        cases hg : JsMap.getStr st.activeCalls k0 with
        | none =>
            by_cases hk : k0 = k
            · subst hk; simp [rejectCall, hc, JsMap.get, hg]
            · simp [rejectCall, hc, JsMap.get, hg, hk]
        | some call =>
            cases hgr : call.isGroup
            · by_cases hk : k0 = k
              · subst hk
                simp [rejectCall, hc, JsMap.get, hg, hgr, JsMap.delete,
                  JsMap.getStr_deleteStr_self]
              · simp [rejectCall, hc, JsMap.get, hg, hgr, hk, JsMap.delete,
                  JsMap.getStr_deleteStr_ne _ _ _ hk]
            · by_cases hk : k0 = k
              · subst hk; simp [rejectCall, hc, JsMap.get, hg, hgr]
              · simp [rejectCall, hc, JsMap.get, hg, hgr, hk]
  refine ⟨rfl, ?_, ?_, ?_, rfl, rfl, rfl⟩
  · intro k caller receiver v t hid hget
    rw [key k, if_pos hid, hget]
    rfl
  · intro k call hget hor
    rw [key k, hget]
    rcases hor with h | h
    · simp [h]
    · simp [h]
  · intro k hget
    rw [key k, hget]
    simp

/-- C12 (witness): B rejects the one-on-one call `call-A-B-100` of A, and the
session is deleted. -/
theorem reject_call_effect_witness :
    JsMap.getStr (rejectCall (callUser (Relay.init []) (inviteAB true) 100 100).relay
        (rejectByB "call-A-B-100")).relay.activeCalls "call-A-B-100" = none :=
  (reject_call_effect (callUser (Relay.init []) (inviteAB true) 100 100).relay
    (rejectByB "call-A-B-100")).2.1 "call-A-B-100" (.str "A") (.str "B") (some true) 100 rfl
    (by decide)

/-- C12 (counterexample): B has answered the group call of A and is listed in
its participants; a `reject call` of B for that call leaves B listed. -/
theorem reject_keeps_listed_user_counterexample :
    JsMap.getStr (step (run (Relay.init []) answeredOnce)
        (.event "sb" (.rejectCall (rejectByB "group-G-5")))).relay.activeCalls "group-G-5" =
      some (.group (.str "G") (.str "A") [.str "A", .str "B"] (some true) 5) := by
  decide

/-! ## Rejection of a group call on the client -/

/-- C13 (evaluation at the failing input): A starts a group call with B and C
on chat G, B answers and C declines. Before A handles `call rejected` it is in
the call with live local media and a peer for B; afterwards `isInCall` is
false, the local stream is released and the peer for B is gone, while the relay
still stores the group session with participants A and B. -/
theorem group_call_ended_by_one_rejection :
    (groupCallRejected userA userB userC (.str "G") 100).before.isInCall = true ∧
      (groupCallRejected userA userB userC (.str "G") 100).before.localStream =
        some [⟨.audio, true, false⟩, ⟨.video, true, false⟩] ∧
      (getPeer (groupCallRejected userA userB userC (.str "G") 100).before.peers
        (.str "B")).isSome = true ∧
      (groupCallRejected userA userB userC (.str "G") 100).after.isInCall = false ∧
      (groupCallRejected userA userB userC (.str "G") 100).after.localStream = none ∧
      getPeer (groupCallRejected userA userB userC (.str "G") 100).after.peers (.str "B") =
        none ∧
      JsMap.getStr (groupCallRejected userA userB userC (.str "G") 100).relay.activeCalls
          "group-G-101" =
        some (.group (.str "G") (.str "A") [.str "A", .str "B"] (some true) 101) := by
  decide

/-! ## Presence events -/

theorem findSocket_id (st : Relay) (sid : String) (sock : Socket)
    (h : st.findSocket sid = some sock) : sock.id = sid := by
  have := List.find?_some h
  simpa using this

/-- C14 (as amended): a `setup` received on an open connection whose presence
write succeeds emits exactly one `user online` carrying the user id to all
other connections, whatever the state, so also when the user already has an
open bound connection; a `setup` whose presence write fails emits nothing. -/
theorem setup_emits_user_online (st : Relay) (sid : String) (userId : JsVal) (now : Nat)
    (hopen : (st.findSocket sid).isSome = true) :
    (step st (.event sid (.setup userId now true))).emits =
        [⟨.broadcast sid, .userOnline userId⟩] ∧
      (step st (.event sid (.setup userId now false))).emits = [] := by
  obtain ⟨sock, hs⟩ := Option.isSome_iff_exists.mp hopen
  have hid := findSocket_id st sid sock hs
  simp [step, hs, handle, setup, hid]

/-- C14 (witness): the first `setup` of B, on connection c3 of a relay where
nobody is bound. -/
theorem setup_emits_user_online_witness :
    (step (run (Relay.init twoUsers) [.connect "c3"])
        (.event "c3" (.setup (.str "B") 3 true))).emits =
      [⟨.broadcast "c3", .userOnline (.str "B")⟩] :=
  (setup_emits_user_online (run (Relay.init twoUsers) [.connect "c3"]) "c3" (.str "B") 3
    (by decide)).1

/-- C14 (counterexample): B is bound on the open connection c2; a `setup` for B
on the further connection c3 emits `user online` for B again. -/
theorem second_setup_counterexample :
    oneDeviceBound.connectionsOf (.str "B") = [⟨"c2", .str "B", [.str "c2", .str "B"]⟩] ∧
      (step oneDeviceBound (.event "c3" (.setup (.str "B") 3 true))).emits =
        [⟨.broadcast "c3", .userOnline (.str "B")⟩] := by
  decide

theorem cleanupCall_payloads (u : JsVal) (k : String) (c : CallSession) :
    ∀ e ∈ (cleanupCall u k c).2, ∀ x, e.payload ≠ .userOffline x := by
  intro e he x
  unfold cleanupCall at he
  split at he
  · simp only [List.mem_singleton] at he
    subst he
    simp
  · split at he
    · split at he
      · simp only [List.mem_map] at he
        obtain ⟨p, _, rfl⟩ := he
        simp
      · simp at he
    · simp at he

theorem cleanupCalls_payloads (u : JsVal) (m : JsMap CallSession) :
    ∀ e ∈ (cleanupCalls u m).2, ∀ x, e.payload ≠ .userOffline x := by
  induction m with
  | nil => intro e he; simp [cleanupCalls] at he
  | cons x rest ih =>
      obtain ⟨k0, c0⟩ := x
      intro e he
      simp only [cleanupCalls, List.mem_append] at he
      rcases he with he | he
      · exact cleanupCall_payloads u k0 c0 e he
      · exact ih e he

/-- C15: when a connection bound to user U disconnects and the presence write
succeeds, in particular when it is the only open connection bound to U, the
document of U gets `isOnline: false`, `lastSeen` equal to the current time and
`socketId: null`, and exactly one `user offline` is emitted: it carries U and
goes to all other connections. -/
theorem disconnect_marks_offline (st : Relay) (sock : Socket) (now : Nat) (u : String)
    (hbound : sock.userId = .str u) (hu : u ≠ "")
    (hdoc : (JsMap.getStr st.users u).isSome = true) :
    JsMap.getStr (disconnect st sock now true).relay.users u =
        some { isOnline := false, socketId := none, lastSeen := now } ∧
    (disconnect st sock now true).relay.isOnline u = some false ∧
    (disconnect st sock now true).emits.count ⟨.broadcast sock.id, .userOffline (.str u)⟩ = 1 ∧
    (∀ e ∈ (disconnect st sock now true).emits, ∀ x, e.payload = .userOffline x →
        e = ⟨.broadcast sock.id, .userOffline (.str u)⟩) := by
  have ht : sock.userId.truthy = true := by rw [hbound]; simpa [JsVal.truthy] using hu
  have husers : (disconnect st sock now true).relay.users =
      JsMap.set st.users u { isOnline := false, socketId := none, lastSeen := now } := by
    have ht' : (JsVal.str u).truthy = true := by rw [← hbound]; exact ht
    simp [disconnect, hbound, ht', updateUser, hdoc]
  have hemits := disconnect_emits st sock now ht
  rw [hbound] at hemits
  have hnone := cleanupCalls_payloads (.str u) st.activeCalls
  refine ⟨?_, ?_, ?_, ?_⟩
  · rw [husers]; exact JsMap.getStr_set_self _ _ _
  · simp only [Relay.isOnline]
    rw [husers, JsMap.getStr_set_self]
    rfl
  · rw [hemits, List.count_cons_self]
    have : (cleanupCalls (.str u) st.activeCalls).2.count
        ⟨.broadcast sock.id, .userOffline (.str u)⟩ = 0 :=
      List.count_eq_zero_of_not_mem (fun hm => hnone _ hm (.str u) rfl)
    omega
  · intro e he x hx
    rw [hemits, List.mem_cons] at he
    rcases he with he | he
    · exact he
    · exact absurd hx (hnone e he x)

/-- C15 (witness): B is bound on c2 only and c2 disconnects at time 9. -/
theorem disconnect_marks_offline_witness :
    (disconnect oneDeviceBound ⟨"c2", .str "B", [.str "c2", .str "B"]⟩ 9 true).relay.isOnline
        "B" = some false ∧
      (disconnect oneDeviceBound ⟨"c2", .str "B", [.str "c2", .str "B"]⟩ 9 true).emits.count
        ⟨.broadcast "c2", .userOffline (.str "B")⟩ = 1 :=
  have h := disconnect_marks_offline oneDeviceBound ⟨"c2", .str "B", [.str "c2", .str "B"]⟩ 9
    "B" rfl (by decide) (by decide)
  ⟨h.2.1, h.2.2.1⟩

/-! ## Typing entries -/

theorem JsMap.getStr_filter_pos {α : Type} (m : JsMap α) (p : String × α → Bool) (k : String)
    (v : α) (h : JsMap.getStr m k = some v) (hp : p (k, v) = true) :
    JsMap.getStr (m.filter p) k = some v := by
  induction m with
  | nil => simp [JsMap.getStr] at h
  | cons x rest ih =>
      obtain ⟨k0, v0⟩ := x
      by_cases h0 : k0 = k
      · subst h0
        simp only [JsMap.getStr, if_true, Option.some.injEq] at h
        subst h
        simp [List.filter, hp, JsMap.getStr]
      · simp only [JsMap.getStr, h0, if_false] at h
        cases hq : p (k0, v0)
        · simpa [List.filter, hq] using ih h
        · simpa [List.filter, hq, JsMap.getStr, h0] using ih h

theorem JsMap.getStr_filter_nodup {α : Type} (m : JsMap α) (p : String × α → Bool) (k : String)
    (hnd : (JsMap.keys m).Nodup) :
    JsMap.getStr (m.filter p) k =
      (JsMap.getStr m k).bind (fun v => if p (k, v) = true then some v else none) := by
  induction m with
  | nil => rfl
  | cons x rest ih =>
      obtain ⟨k0, v0⟩ := x
      simp only [JsMap.keys, List.map_cons, List.nodup_cons] at hnd
      by_cases h0 : k0 = k
      · subst h0
        have hrest : JsMap.getStr rest k0 = none :=
          JsMap.getStr_eq_none_of_not_mem _ _ hnd.1
        have hrest' : JsMap.getStr (rest.filter p) k0 = none := by
          rw [ih hnd.2, hrest]; rfl
        cases hq : p (k0, v0)
        · simp [List.filter, hq, JsMap.getStr, hrest']
        · simp [List.filter, hq, JsMap.getStr]
      · cases hq : p (k0, v0)
        · simpa [List.filter, hq, JsMap.getStr, h0] using ih hnd.2
        · simpa [List.filter, hq, JsMap.getStr, h0] using ih hnd.2

theorem disconnect_typingUsers (st : Relay) (sock : Socket) (now : Nat)
    (hbound : sock.userId.truthy = true) :
    (disconnect st sock now true).relay.typingUsers =
      cleanupTyping sock.userId st.typingUsers := by
  simp [disconnect, hbound]

/-- C16: after the disconnect handler has run for a connection bound to user U
with the presence write succeeding, `typingUsers` has no entry whose userId is
U, every entry of another user is still stored unchanged under its key, and no
entry has appeared. -/
theorem disconnect_typing_cleanup (st : Relay) (sock : Socket) (now : Nat)
    (hbound : sock.userId.truthy = true) :
    (∀ e ∈ (disconnect st sock now true).relay.typingUsers, e.2.userId ≠ sock.userId) ∧
    (∀ k entry, JsMap.getStr st.typingUsers k = some entry → entry.userId ≠ sock.userId →
        JsMap.getStr (disconnect st sock now true).relay.typingUsers k = some entry) ∧
    (∀ e ∈ (disconnect st sock now true).relay.typingUsers, e ∈ st.typingUsers) := by
  rw [disconnect_typingUsers st sock now hbound]
  refine ⟨?_, ?_, ?_⟩
  · intro e he
    have := (List.mem_filter.mp he).2
    simpa using this
  · intro k entry hget hne
    exact JsMap.getStr_filter_pos _ _ k entry hget (by simpa using hne)
  · intro e he
    exact (List.mem_filter.mp he).1

/-- C16 (witness): B, who is typing in R, disconnects; no entry is left. -/
theorem disconnect_typing_cleanup_witness :
    (disconnect typistBound ⟨"c2", .str "B", [.str "c2", .str "B", .str "R"]⟩ 9
        true).relay.typingUsers = [] ∧
      ∀ e ∈ (disconnect typistBound ⟨"c2", .str "B", [.str "c2", .str "B", .str "R"]⟩ 9
          true).relay.typingUsers, e.2.userId ≠ .str "B" :=
  ⟨by decide,
   (disconnect_typing_cleanup typistBound ⟨"c2", .str "B", [.str "c2", .str "B", .str "R"]⟩ 9
     (by decide)).1⟩

/-- C17 (evaluation at the failing input): B reports typing in room R and its
connection c2 disconnects right after. The typing entry is removed, and the
only emission of the disconnect is `user offline`: no `stop typing` is sent to
room R. -/
theorem disconnect_sends_no_stop_typing :
    typistBound.typingUsers =
        [("R-B", { chatId := .str "R", userId := .str "B", userName := .str "Bob",
                   timestamp := 5 })] ∧
      (step typistBound (.event "c2" (.disconnect 9 true))).relay.typingUsers = [] ∧
      (step typistBound (.event "c2" (.disconnect 9 true))).emits =
        [⟨.broadcast "c2", .userOffline (.str "B")⟩] := by
  decide

/-- C18 (as amended): a typing entry created by a `typing` event on connection
c is gone after the immediately following disconnect of c exactly when c is
bound to the userId the event named and the presence write succeeds; when c is
not bound, when the event named another userId, or when the write fails, the
entry is still stored after the disconnect of c has been handled. -/
theorem typing_then_disconnect (st : Relay) (sock : Socket) (chatId userId userName : JsVal)
    (now now2 : Nat) (dbOk : Bool) (hopen : st.findSocket sock.id = some sock)
    (hkeys : (JsMap.keys st.typingUsers).Nodup) :
    JsMap.getStr (run st [.event sock.id (.typing chatId userId userName now),
        .event sock.id (.disconnect now2 dbOk)]).typingUsers (typingKey chatId userId) =
      if sock.userId.truthy = true ∧ dbOk = true ∧ userId = sock.userId then none
      else some { chatId := chatId, userId := userId, userName := userName,
                  timestamp := now } := by
  have h1 : (step st (.event sock.id (.typing chatId userId userName now))).relay =
      (typing st sock chatId userId userName now).relay := by
    simp [step, hopen, handle]
  have hopen1 : (typing st sock chatId userId userName now).relay.findSocket sock.id =
      some sock := hopen
  have hget : JsMap.getStr (typing st sock chatId userId userName now).relay.typingUsers
      (typingKey chatId userId) =
      some ⟨chatId, userId, userName, now⟩ := JsMap.getStr_set_self _ _ _
  have hnd : (JsMap.keys (typing st sock chatId userId userName now).relay.typingUsers).Nodup :=
    JsMap.keys_set_nodup _ _ _ hkeys
  have hrun : run st [.event sock.id (.typing chatId userId userName now),
      .event sock.id (.disconnect now2 dbOk)] =
      (step (step st (.event sock.id (.typing chatId userId userName now))).relay
        (.event sock.id (.disconnect now2 dbOk))).relay := rfl
  have h2 : step (typing st sock chatId userId userName now).relay
      (.event sock.id (.disconnect now2 dbOk)) =
      disconnect (typing st sock chatId userId userName now).relay sock now2 dbOk := by
    simp only [step, hopen1, handle]
  rw [hrun, h1, h2]
  generalize (typing st sock chatId userId userName now).relay = st1 at hget hnd
  by_cases ht : sock.userId.truthy = true
  · cases dbOk
    · simp [disconnect, ht, Result.skip, hget]
    · rw [disconnect_typingUsers _ sock now2 ht]
      simp only [cleanupTyping]
      rw [JsMap.getStr_filter_nodup _ _ _ hnd, hget]
      by_cases hu : userId = sock.userId
      · simp [ht, hu]
      · simp [ht, hu]
  · simp [disconnect, ht, Result.skip, hget]

/-- C18 (witness): B is bound on c2, reports typing for itself in room R and
disconnects; the entry is gone. -/
theorem typing_then_disconnect_witness :
    JsMap.getStr (run oneDeviceBound
        [.event "c2" (.typing (.str "R") (.str "B") (.str "Bob") 5),
         .event "c2" (.disconnect 9 true)]).typingUsers "R-B" = none :=
  typing_then_disconnect oneDeviceBound ⟨"c2", .str "B", [.str "c2", .str "B"]⟩ (.str "R")
    (.str "B") (.str "Bob") 5 9 true (by decide) (by decide)

/-- C18 (counterexample): a connection that never sent `setup` reports typing
for B in room R and disconnects; no connection is open any more, yet the entry
it created is still in `typingUsers`. -/
theorem typing_entry_outlives_connection_counterexample :
    (run (Relay.init twoUsers) unboundTypist).sockets = [] ∧
      (run (Relay.init twoUsers) unboundTypist).typingUsers =
        [("R-B", { chatId := .str "R", userId := .str "B", userName := .str "Bob",
                   timestamp := 5 })] := by
  decide

/-! ## Keys of typing entries -/

theorem prefix_before_dash : ∀ (l1 l2 r1 r2 : List Char), '-' ∉ l1 → '-' ∉ l2 →
    l1 ++ '-' :: r1 = l2 ++ '-' :: r2 → l1 = l2 ∧ r1 = r2 := by
  intro l1
  induction l1 with
  | nil =>
      intro l2 r1 r2 _ h2 h
      cases l2 with
      | nil => exact ⟨rfl, by simpa using h⟩
      | cons c l2 =>
          simp only [List.nil_append, List.cons_append, List.cons.injEq] at h
          exact absurd (by rw [← h.1]; simp) h2
  | cons c l1 ih =>
      intro l2 r1 r2 h1 h2 h
      cases l2 with
      | nil =>
          simp only [List.nil_append, List.cons_append, List.cons.injEq] at h
          exact absurd (by rw [h.1]; simp) h1
      | cons c' l2 =>
          simp only [List.cons_append, List.cons.injEq] at h
          have h1' : '-' ∉ l1 := fun hm => h1 (List.mem_cons_of_mem _ hm)
          have h2' : '-' ∉ l2 := fun hm => h2 (List.mem_cons_of_mem _ hm)
          obtain ⟨hl, hr⟩ := ih l2 r1 r2 h1' h2' h.2
          exact ⟨by rw [h.1, hl], hr⟩

/-- The typing key determines the pair of ids when the chat ids hold no dash. -/
theorem typingKey_injective (c1 u1 c2 u2 : String) (h1 : '-' ∉ c1.data) (h2 : '-' ∉ c2.data)
    (h : typingKey (.str c1) (.str u1) = typingKey (.str c2) (.str u2)) :
    c1 = c2 ∧ u1 = u2 := by
  have hd := congrArg String.data h
  simp only [typingKey, JsVal.template, String.data_append] at hd
  have hdash : ("-" : String).data = ['-'] := rfl
  simp only [hdash, List.append_assoc, List.singleton_append] at hd
  obtain ⟨hc, hu⟩ := prefix_before_dash _ _ _ _ h1 h2 hd
  exact ⟨String.ext hc, String.ext hu⟩

/-- C19 (as amended): for chat ids that are strings without a dash and user
ids that are strings, typing entries are keyed by the pair (chatId, userId):
for all pairs (c1,u1) different from (c2,u2), a `typing` event for (c2,u2)
leaves the entry of (c1,u1) as it is and a `stop typing` event for (c2,u2) does
not remove it. -/
theorem typing_keys_separate (st : Relay) (sock : Socket) (c1 u1 c2 u2 : String)
    (userName : JsVal) (now : Nat) (h1 : '-' ∉ c1.data) (h2 : '-' ∉ c2.data)
    (hne : (c1, u1) ≠ (c2, u2)) :
    JsMap.getStr (typing st sock (.str c2) (.str u2) userName now).relay.typingUsers
        (typingKey (.str c1) (.str u1)) =
      JsMap.getStr st.typingUsers (typingKey (.str c1) (.str u1)) ∧
    JsMap.getStr (stopTyping st sock (.str c2) (.str u2)).relay.typingUsers
        (typingKey (.str c1) (.str u1)) =
      JsMap.getStr st.typingUsers (typingKey (.str c1) (.str u1)) := by
  have hk : typingKey (.str c2) (.str u2) ≠ typingKey (.str c1) (.str u1) := by
    intro h
    obtain ⟨hc, hu⟩ := typingKey_injective c2 u2 c1 u1 h2 h1 h
    exact hne (by rw [hc, hu])
  exact ⟨JsMap.getStr_set_ne _ _ _ _ hk, JsMap.getStr_deleteStr_ne _ _ _ hk⟩

/-- C19 (witness): B typing in room R2 does not touch the entry of B in room R. -/
theorem typing_keys_separate_witness :
    JsMap.getStr (typing typistBound ⟨"c2", .str "B", [.str "c2", .str "B", .str "R"]⟩
        (.str "R2") (.str "B") (.str "Bob") 6).relay.typingUsers
        (typingKey (.str "R") (.str "B")) =
      JsMap.getStr typistBound.typingUsers (typingKey (.str "R") (.str "B")) :=
  (typing_keys_separate typistBound ⟨"c2", .str "B", [.str "c2", .str "B", .str "R"]⟩
    "R" "B" "R2" "B" (.str "Bob") 6 (by decide) (by decide) (by decide)).1

/-- C19 (counterexample): the pairs (a-b, c) and (a, b-c) differ, yet both give
the key a-b-c: a `typing` event for (a, b-c) overwrites the entry of (a-b, c),
and a `stop typing` event for (a, b-c) removes it. -/
theorem typing_key_collision_counterexample :
    ((JsVal.str "a-b", JsVal.str "c") ≠ (JsVal.str "a", JsVal.str "b-c")) ∧
      JsMap.getStr (typing (typing (Relay.init []) ⟨"s", .undefined, []⟩ (.str "a-b") (.str "c")
          (.str "Cy") 1).relay ⟨"s", .undefined, []⟩ (.str "a") (.str "b-c") (.str "Bo")
          2).relay.typingUsers (typingKey (.str "a-b") (.str "c")) =
        some { chatId := .str "a", userId := .str "b-c", userName := .str "Bo",
               timestamp := 2 } ∧
      JsMap.getStr (stopTyping (typing (Relay.init []) ⟨"s", .undefined, []⟩ (.str "a-b")
          (.str "c") (.str "Cy") 1).relay ⟨"s", .undefined, []⟩ (.str "a")
          (.str "b-c")).relay.typingUsers (typingKey (.str "a-b") (.str "c")) = none := by
  decide

/-! ## Message fan-out -/

theorem newMessage_emits (st : Relay) (sock : Socket) (messageData : Message)
    (users : List String) (s : String) (hs : messageData.sender = .str s) :
    (newMessage st sock messageData (.found (some users))).emits =
      (users.filter (fun userId => decide (userId ≠ s))).map
        (fun userId => ⟨.socketTo sock.id (.str userId), .messageReceived messageData⟩) := by
  simp [newMessage, hs]

theorem newMessage_relay (st : Relay) (sock : Socket) (messageData : Message)
    (lookup : ChatLookup) : (newMessage st sock messageData lookup).relay = st := by
  unfold newMessage
  split <;> rfl

/-- C20 (as amended): for a `new message` event with a sender id, whose chat
lookup returns a chat with a duplicate-free users list, `message received`
carrying the message object unchanged is emitted exactly once for every chat
user other than the sender, addressed with `socket.to` to that user's room, and
nothing else is emitted, so nothing is addressed to the sender's room; every
connection it is delivered to is a member of the room of a chat user other than
the sender and is not the emitting connection. When the lookup finds no chat,
fails, or finds a chat without users, nothing is emitted. The handler never
changes the relay state, in particular not `activeCalls` or `typingUsers`. -/
theorem new_message_fan_out (st : Relay) (sock : Socket) (messageData : Message)
    (users : List String) (s : String) (hs : messageData.sender = .str s)
    (hnd : users.Nodup) :
    (∀ u, (newMessage st sock messageData (.found (some users))).emits.count
        ⟨.socketTo sock.id (.str u), .messageReceived messageData⟩ =
          if u ∈ users ∧ u ≠ s then 1 else 0) ∧
    (∀ e ∈ (newMessage st sock messageData (.found (some users))).emits,
        e.payload = .messageReceived messageData ∧
        ∃ u, u ∈ users ∧ u ≠ s ∧ e.target = .socketTo sock.id (.str u)) ∧
    (∀ e ∈ (newMessage st sock messageData (.found (some users))).emits,
        ∀ c ∈ st.receivers e, c.id ≠ sock.id ∧ ∃ u, u ∈ users ∧ u ≠ s ∧ JsVal.str u ∈ c.rooms) ∧
    (newMessage st sock messageData .notFound).emits = [] ∧
    (newMessage st sock messageData .failed).emits = [] ∧
    (newMessage st sock messageData (.found none)).emits = [] ∧
    (∀ lookup, (newMessage st sock messageData lookup).relay = st) := by
  have hem := newMessage_emits st sock messageData users s hs
  have hmem : ∀ e ∈ (newMessage st sock messageData (.found (some users))).emits,
      e.payload = .messageReceived messageData ∧
      ∃ u, u ∈ users ∧ u ≠ s ∧ e.target = .socketTo sock.id (.str u) := by
    intro e he
    rw [hem] at he
    simp only [List.mem_map, List.mem_filter] at he
    obtain ⟨u, ⟨hu, hne⟩, rfl⟩ := he
    exact ⟨rfl, u, hu, by simpa using hne, rfl⟩
  refine ⟨?_, hmem, ?_, ?_, ?_, ?_, newMessage_relay st sock messageData⟩
  · intro u
    have hinj : Function.Injective
        (fun userId => (⟨.socketTo sock.id (.str userId), .messageReceived messageData⟩ : Emit)) := by
      intro a b hab
      simpa using hab
    rw [hem, show (⟨.socketTo sock.id (.str u), .messageReceived messageData⟩ : Emit) =
        (fun userId => (⟨.socketTo sock.id (.str userId), .messageReceived messageData⟩ : Emit)) u
        from rfl, List.count_map_of_injective _ _ hinj]
    by_cases hp : u ∈ users ∧ u ≠ s
    · rw [if_pos hp]
      apply List.count_eq_one_of_mem (hnd.filter _)
      simp [List.mem_filter, hp.1, hp.2]
    · rw [if_neg hp]
      apply List.count_eq_zero_of_not_mem
      simpa [List.mem_filter] using hp
  · intro e he c hc
    obtain ⟨_, u, hu, hne, ht⟩ := hmem e he
    simp only [Relay.receivers, ht, List.mem_filter, Bool.and_eq_true, decide_eq_true_eq] at hc
    exact ⟨hc.2.2, u, hu, hne, hc.2.1⟩
  · simp [newMessage, Result.skip]
  · simp [newMessage, Result.skip]
  · simp [newMessage, Result.skip]

/-- C20 (witness): A sends a message for a chat of A, B on connection c1; one
`message received` is addressed to the room of B, none to the room of A. -/
theorem new_message_fan_out_witness :
    (newMessage senderInOtherRoom ⟨"c1", .str "A", [.str "c1", .str "A"]⟩ messageOfA
        (.found (some ["A", "B"]))).emits.count
        ⟨.socketTo "c1" (.str "B"), .messageReceived messageOfA⟩ = 1 ∧
      (newMessage senderInOtherRoom ⟨"c1", .str "A", [.str "c1", .str "A"]⟩ messageOfA
        (.found (some ["A", "B"]))).emits.count
        ⟨.socketTo "c1" (.str "A"), .messageReceived messageOfA⟩ = 0 :=
  have h := (new_message_fan_out senderInOtherRoom ⟨"c1", .str "A", [.str "c1", .str "A"]⟩
    messageOfA ["A", "B"] "A" rfl (by decide)).1
  ⟨h "B", h "A"⟩

/-- C20 (counterexample): A is bound on c1 and c2, and c2 has joined the room
named B. A sends a message for the chat of A and B on c1: the emission addressed
to the room of B is delivered to c2, a connection of the sender. -/
theorem message_reaches_sender_connection_counterexample :
    (step senderInOtherRoom
        (.event "c1" (.newMessage messageOfA (.found (some ["A", "B"]))))).emits =
        [⟨.socketTo "c1" (.str "B"), .messageReceived messageOfA⟩] ∧
      senderInOtherRoom.receivers ⟨.socketTo "c1" (.str "B"), .messageReceived messageOfA⟩ =
        [⟨"c2", .str "A", [.str "c2", .str "A", .str "B"]⟩,
         ⟨"c3", .str "B", [.str "c3", .str "B"]⟩] := by
  decide

/-! ## Room membership -/

theorem findSocket_putSocket_self (st : Relay) (sock sock1 : Socket)
    (h : st.findSocket sock.id = some sock) (hid : sock1.id = sock.id) :
    (st.putSocket sock1).findSocket sock.id = some sock1 := by
  simp only [Relay.findSocket, Relay.putSocket] at h ⊢
  generalize st.sockets = l at h
  induction l with
  | nil => simp at h
  | cons s rest ih =>
      by_cases hs : s.id = sock.id
      · simp [List.find?, hs, hid]
      · simp only [List.find?, hs, decide_False] at h
        simp only [List.map_cons, hid, hs, if_false, List.find?, decide_False]
        simpa [hid] using ih h

theorem findSocket_putSocket_ne (st : Relay) (sock1 : Socket) (sid : String)
    (hne : sid ≠ sock1.id) : (st.putSocket sock1).findSocket sid = st.findSocket sid := by
  simp only [Relay.findSocket, Relay.putSocket]
  generalize st.sockets = l
  induction l with
  | nil => rfl
  | cons s rest ih =>
      by_cases hs : s.id = sock1.id
      · have hs' : ¬ s.id = sid := fun h => hne (h ▸ hs)
        have hs'' : ¬ sock1.id = sid := fun h => hne h.symm
        simp only [List.map_cons, hs, if_true, List.find?, hs', hs'', decide_False]
        exact ih
      · simp only [List.map_cons, hs, if_false, List.find?]
        cases decide (s.id = sid)
        · exact ih
        · rfl

theorem putSocket_putSocket (st : Relay) (sock1 : Socket) :
    (st.putSocket sock1).putSocket sock1 = st.putSocket sock1 := by
  simp only [Relay.putSocket, List.map_map]
  congr 1
  apply List.map_congr_left
  intro s _
  by_cases hs : s.id = sock1.id <;> simp [hs]

theorem leaveRoom_leaveRoom (rooms : List JsVal) (room : JsVal) :
    leaveRoom (leaveRoom rooms room) room = leaveRoom rooms room := by
  simp [leaveRoom, List.filter_filter]

theorem joinRoom_joinRoom (rooms : List JsVal) (room : JsVal) :
    joinRoom (joinRoom rooms room) room = joinRoom rooms room := by
  by_cases h : room ∈ rooms
  · simp [joinRoom, h]
  · simp [joinRoom, h]

theorem leaveRoom_of_not_mem (rooms : List JsVal) (room : JsVal) (h : room ∉ rooms) :
    leaveRoom rooms room = rooms := by
  simp only [leaveRoom, List.filter_eq_self]
  intro r hr
  have : r ≠ room := fun he => h (he ▸ hr)
  simpa using this

theorem step_leaveChat (st : Relay) (sid : String) (sock : Socket) (chatId : JsVal)
    (h : st.findSocket sid = some sock) :
    step st (.event sid (.leaveChat chatId)) = leaveChat st sock chatId := by
  simp [step, h, handle]

theorem step_joinChat (st : Relay) (sid : String) (sock : Socket) (chatId : JsVal)
    (h : st.findSocket sid = some sock) :
    step st (.event sid (.joinChat chatId)) = joinChat st sock chatId := by
  simp [step, h, handle]

/-- C21: for every open connection and room id, handling `leave chat` twice
leaves the relay exactly as handling it once, likewise `join chat`; leaving a
room the connection is not a member of changes the membership of no
connection; neither handler emits anything. -/
theorem room_membership_idempotent (st : Relay) (sid : String) (chatId : JsVal)
    (hopen : (st.findSocket sid).isSome = true) :
    run st [.event sid (.leaveChat chatId), .event sid (.leaveChat chatId)] =
        run st [.event sid (.leaveChat chatId)] ∧
    run st [.event sid (.joinChat chatId), .event sid (.joinChat chatId)] =
        run st [.event sid (.joinChat chatId)] ∧
    (∀ rooms, st.roomsOf sid = some rooms → chatId ∉ rooms →
        ∀ sid1, (run st [.event sid (.leaveChat chatId)]).roomsOf sid1 = st.roomsOf sid1) ∧
    runEmits st [.event sid (.leaveChat chatId), .event sid (.leaveChat chatId)] = [] ∧
    runEmits st [.event sid (.joinChat chatId), .event sid (.joinChat chatId)] = [] := by
  obtain ⟨sock, hs⟩ := Option.isSome_iff_exists.mp hopen
  have hid : sock.id = sid := findSocket_id st sid sock hs
  subst hid
  have hl1 : (st.putSocket { sock with rooms := leaveRoom sock.rooms chatId }).findSocket sock.id =
      some { sock with rooms := leaveRoom sock.rooms chatId } :=
    findSocket_putSocket_self st sock _ hs rfl
  have hj1 : (st.putSocket { sock with rooms := joinRoom sock.rooms chatId }).findSocket sock.id =
      some { sock with rooms := joinRoom sock.rooms chatId } :=
    findSocket_putSocket_self st sock _ hs rfl
  refine ⟨?_, ?_, ?_, ?_, ?_⟩
  · simp only [run, step_leaveChat st _ sock chatId hs, leaveChat]
    rw [step_leaveChat _ _ _ chatId hl1]
    simp only [leaveChat, leaveRoom_leaveRoom]
    exact putSocket_putSocket st _
  · simp only [run, step_joinChat st _ sock chatId hs, joinChat]
    rw [step_joinChat _ _ _ chatId hj1]
    simp only [joinChat, joinRoom_joinRoom]
    exact putSocket_putSocket st _
  · intro rooms hrooms hnot sid1
    have hr : sock.rooms = rooms := by
      simpa [Relay.roomsOf, hs] using hrooms
    subst hr
    simp only [run, step_leaveChat st _ sock chatId hs, leaveChat,
      leaveRoom_of_not_mem _ _ hnot, Relay.roomsOf]
    by_cases h1 : sid1 = sock.id
    · subst h1
      rw [findSocket_putSocket_self st sock sock hs rfl, hs]
    · rw [findSocket_putSocket_ne st sock sid1 h1]
  · simp only [runEmits, step_leaveChat st _ sock chatId hs, leaveChat]
    rw [step_leaveChat _ _ _ chatId hl1]
    rfl
  · simp only [runEmits, step_joinChat st _ sock chatId hs, joinChat]
    rw [step_joinChat _ _ _ chatId hj1]
    rfl

/-- C21 (witness): connection c2 of B leaves room R twice. -/
theorem room_membership_idempotent_witness :
    run typistBound [.event "c2" (.leaveChat (.str "R")), .event "c2" (.leaveChat (.str "R"))] =
      run typistBound [.event "c2" (.leaveChat (.str "R"))] :=
  (room_membership_idempotent typistBound "c2" (.str "R") (by decide)).1

/-! ## Media-control fan-out -/

theorem fanOut_count (ps : List JsVal) (userId p : JsVal) (payload : Payload) :
    countTo (fanOut (some ps) userId payload) p payload =
      if p = userId then 0 else ps.count p := by
  have hinj : Function.Injective (fun q => (⟨.toRoom q, payload⟩ : Emit)) := by
    intro a b hab
    simpa using hab
  simp only [countTo, fanOut]
  rw [show (⟨.toRoom p, payload⟩ : Emit) = (fun q => (⟨.toRoom q, payload⟩ : Emit)) p from rfl,
    List.count_map_of_injective _ _ hinj]
  by_cases hp : p = userId
  · rw [if_pos hp]
    apply List.count_eq_zero_of_not_mem
    simp [List.mem_filter, hp]
  · rw [if_neg hp]
    apply List.count_filter
    simpa using hp

theorem fanOut_mem (ps : List JsVal) (userId : JsVal) (payload : Payload) :
    ∀ e ∈ fanOut (some ps) userId payload,
      e.payload = payload ∧ ∃ p, p ∈ ps ∧ p ≠ userId ∧ e.target = .toRoom p := by
  intro e he
  simp only [fanOut, List.mem_map, List.mem_filter] at he
  obtain ⟨p, ⟨hp, hne⟩, rfl⟩ := he
  exact ⟨rfl, p, hp, by simpa using hne, rfl⟩

/-- C22 (as amended): each of the handlers of `toggle audio`, `toggle video`,
`screen share start` and `screen share stop` leaves the relay state unchanged,
in particular `activeCalls` and `typingUsers`; every emission is its
notification addressed to a listed participant other than userId; a participant
other than userId is addressed once per occurrence in the list, so exactly once
when listed once, and userId never; nothing is emitted when the participants
list is absent. -/
theorem media_control_fan_out (st : Relay) (userId : JsVal) (isMuted isVideoOff : Bool)
    (ps : List JsVal) :
    (∀ r ∈ [(toggleAudio st userId isMuted (some ps), Payload.userAudioToggle userId isMuted),
            (toggleVideo st userId isVideoOff (some ps), .userVideoToggle userId isVideoOff),
            (screenShareStart st userId (some ps), .userScreenShare userId true),
            (screenShareStop st userId (some ps), .userScreenShare userId false)],
        r.1.relay = st ∧
        (∀ p, countTo r.1.emits p r.2 = if p = userId then 0 else ps.count p) ∧
        (∀ e ∈ r.1.emits, e.payload = r.2 ∧ ∃ p, p ∈ ps ∧ p ≠ userId ∧ e.target = .toRoom p)) ∧
    (∀ r ∈ [toggleAudio st userId isMuted none, toggleVideo st userId isVideoOff none,
            screenShareStart st userId none, screenShareStop st userId none],
        r.relay = st ∧ r.emits = []) := by
  constructor
  · intro r hr
    simp only [List.mem_cons, List.mem_singleton, List.not_mem_nil, or_false] at hr
    rcases hr with rfl | rfl | rfl | rfl
    all_goals exact ⟨rfl, fun p => fanOut_count ps userId p _, fanOut_mem ps userId _⟩
  · intro r hr
    simp only [List.mem_cons, List.mem_singleton, List.not_mem_nil, or_false] at hr
    rcases hr with rfl | rfl | rfl | rfl
    all_goals exact ⟨rfl, rfl⟩

/-- C22 (witness): a `toggle audio` event of A naming A and B reaches B once. -/
theorem media_control_fan_out_witness :
    countTo (toggleAudio (Relay.init []) (.str "A") true (some [.str "A", .str "B"])).emits
      (.str "B") (.userAudioToggle (.str "A") true) = 1 :=
  ((media_control_fan_out (Relay.init []) (.str "A") true false [.str "A", .str "B"]).1
    (toggleAudio (Relay.init []) (.str "A") true (some [.str "A", .str "B"]),
     .userAudioToggle (.str "A") true) (List.mem_cons_self _ _)).2.1 (.str "B")

/-- C22 (counterexample): a `toggle audio` event of A whose participants list
names B twice sends the notification to B twice. -/
theorem media_control_repeat_counterexample :
    countTo (toggleAudio (Relay.init []) (.str "A") true
        (some [.str "A", .str "B", .str "B"])).emits (.str "B")
      (.userAudioToggle (.str "A") true) = 2 := by
  decide

/-! ## Malformed invites -/

/-- C23 (as amended): a `call user` event that is a non-group invite, or a
group invite carrying a participants list, is not dropped, whether or not
`userToCall` or the media kind `isVideo` is present: the handler does not
throw, stores the session under the minted callId with the given `userToCall`
and `isVideo`, absent or not, and emits `incoming call`: for a non-group
invite exactly one, to the room named by `userToCall`; for a group invite one
to each listed participant other than the sender. -/
theorem invite_not_validated (st : Relay) (d : CallUserData) (now startTime : Nat)
    (hshape : d.isGroup = false ∨ d.participants.isSome = true) :
    (callUser st d now startTime).threw = false ∧
    (d.isGroup = false →
        JsMap.getStr (callUser st d now startTime).relay.activeCalls
            (directCallId d.sender d.userToCall now) =
          some (.direct d.sender d.userToCall d.isVideo startTime) ∧
        (callUser st d now startTime).emits =
          [⟨.toRoom d.userToCall, .incomingCall d.signalData d.sender d.callerName
            d.callerAvatar d.isVideo false (directCallId d.sender d.userToCall now) none⟩]) ∧
    (d.isGroup = true →
        JsMap.getStr (callUser st d now startTime).relay.activeCalls (groupCallId d.chatId now) =
          some (.group d.chatId d.sender [d.sender] d.isVideo startTime) ∧
        ∀ ps, d.participants = some ps →
          (callUser st d now startTime).emits =
            (ps.filter (fun userId => decide (userId ≠ d.sender))).map (fun userId =>
              ⟨.toRoom userId, .incomingCall d.signalData d.sender d.callerName d.callerAvatar
                d.isVideo true (groupCallId d.chatId now) (some d.chatId)⟩)) := by
  cases hg : d.isGroup
  · refine ⟨by simp [callUser, hg], fun _ => ⟨?_, by simp [callUser, hg]⟩, fun h => by simp at h⟩
    simp only [callUser, hg, Bool.false_eq_true, if_false]
    exact JsMap.getStr_set_self _ _ _
  · rcases hshape with h | h
    · rw [hg] at h; simp at h
    · obtain ⟨ps, hps⟩ := Option.isSome_iff_exists.mp h
      refine ⟨by simp [callUser, hg, hps], fun h => by simp at h, fun _ => ⟨?_, ?_⟩⟩
      · simp only [callUser, hg, if_true, hps]
        exact JsMap.getStr_set_self _ _ _
      · intro ps1 hps1
        rw [hps] at hps1
        simp only [Option.some.injEq] at hps1
        subst hps1
        simp [callUser, hg, hps]

/-- C23 (witness): the invite of A without target and media kind, at clock 7. -/
theorem invite_not_validated_witness :
    (callUser (Relay.init []) inviteWithoutTarget 7 7).threw = false ∧
      JsMap.getStr (callUser (Relay.init []) inviteWithoutTarget 7 7).relay.activeCalls
          (directCallId (.str "A") .undefined 7) =
        some (.direct (.str "A") .undefined none 7) :=
  have h := invite_not_validated (Relay.init []) inviteWithoutTarget 7 7 (Or.inl rfl)
  ⟨h.1, (h.2.1 rfl).1⟩

/-- C23 (counterexample): a one-on-one invite of A without `userToCall` and
without `isVideo` is not dropped: a session is stored and `incoming call` is
emitted. -/
theorem malformed_invite_counterexample :
    (callUser (Relay.init []) inviteWithoutTarget 7 7).relay.activeCalls =
        [("call-A-undefined-7", .direct (.str "A") .undefined none 7)] ∧
      (callUser (Relay.init []) inviteWithoutTarget 7 7).emits =
        [⟨.toRoom .undefined, .incomingCall "offer" (.str "A") (.str "Ann") .null none false
          "call-A-undefined-7" none⟩] := by
  decide

/-! ## Disconnect with a failing presence write -/

/-- C24 (evaluation at the failing input): D takes part in the four-party call
and has a typing entry; the connection of D disconnects and the presence write
fails. Nothing is emitted, the group session still lists D and the typing entry
of D is still stored; with a succeeding write D is removed from the session and
the entry is deleted. -/
theorem failed_write_skips_cleanup :
    (step typistInCall (.event "sd" (.disconnect 9 false))).emits = [] ∧
      (step typistInCall (.event "sd" (.disconnect 9 false))).relay.activeCalls =
        typistInCall.activeCalls ∧
      JsMap.getStr (step typistInCall (.event "sd" (.disconnect 9 false))).relay.activeCalls
          "group-G-5" =
        some (.group (.str "G") (.str "A") [.str "A", .str "B", .str "C", .str "D"]
          (some true) 5) ∧
      (step typistInCall (.event "sd" (.disconnect 9 false))).relay.typingUsers =
        [("G-D", { chatId := .str "G", userId := .str "D", userName := .str "Dee",
                   timestamp := 8 })] ∧
      JsMap.getStr (step typistInCall (.event "sd" (.disconnect 9 true))).relay.activeCalls
          "group-G-5" =
        some (.group (.str "G") (.str "A") [.str "A", .str "B", .str "C"] (some true) 5) ∧
      (step typistInCall (.event "sd" (.disconnect 9 true))).relay.typingUsers = [] := by
  decide

/-! ## Client teardown -/

/-- What `endCall` releases: it emits exactly one `end call` event, with the
current callId, the own user id and the ids of the current participants, calls
`stop()` on every track of the streams the two stream refs hold at that moment
and `destroy()` on every peer the table holds at that moment, empties the
table, clears both refs and the timer ref and resets the call state. Streams,
peers and timers that a ref or the table no longer holds are out of its reach. -/
theorem endCall_releases_current_refs (c : Client) :
    c.endCall.2 =
        [.endCall { callId := c.callId, userId := c.user.id,
                    participants := some (c.participants.map Participant.id) }] ∧
    (∀ t ∈ c.localStream.getD [], t ∈ c.endCall.1.stoppedTracks) ∧
    (∀ t ∈ c.screenStream.getD [], t ∈ c.endCall.1.stoppedTracks) ∧
    (∀ kp ∈ c.peers, kp.2.destroyed = true ∨ kp.2 ∈ c.endCall.1.destroyedPeers) ∧
    c.endCall.1.peers = [] ∧ c.endCall.1.localStream = none ∧
    c.endCall.1.screenStream = none ∧ c.endCall.1.durationInterval = false ∧
    c.endCall.1.isInCall = false ∧ c.endCall.1.callId = .null ∧
    c.endCall.1.callType = none ∧ c.endCall.1.isGroupCall = false ∧
    c.endCall.1.participants = [] ∧ c.endCall.1.callDuration = 0 ∧
    c.endCall.1.isMuted = false ∧ c.endCall.1.isVideoOff = false ∧
    c.endCall.1.isScreenSharing = false ∧ c.endCall.1.incomingCall = none := by
  refine ⟨rfl, ?_, ?_, ?_, rfl, rfl, rfl, rfl, rfl, rfl, rfl, rfl, rfl, rfl, rfl, rfl, rfl, rfl⟩
  · intro t ht
    simp only [Client.endCall, Client.cleanup, List.mem_append]
    exact Or.inl (Or.inr ht)
  · intro t ht
    simp only [Client.endCall, Client.cleanup, List.mem_append]
    exact Or.inr ht
  · intro kp hkp
    cases hd : kp.2.destroyed
    · right
      simp only [Client.endCall, Client.cleanup, List.mem_append, List.mem_filter, List.mem_map]
      exact Or.inr ⟨⟨kp, hkp, rfl⟩, by simp [hd]⟩
    · left; rfl

/-- C25 (evaluation at the failing input): B answers an invite of A, answers a
second invite of A while in that call, then calls `endCall`. The second
`answerCall` replaces the peer stored for A and the local stream ref without
releasing the old ones, so `endCall` calls `destroy()` on the second peer only
and `stop()` on the two tracks of the second stream only: the peer opened by
the first answer is never destroyed and the track of the first stream is never
stopped, although the state is idle and one `end call` event is emitted. -/
theorem end_call_after_second_answer :
    getPeer secondAnswerThenEnd.first.peers (.str "A") =
        some { initiator := false, stream := [⟨.audio, true, false⟩], received := ["offer-1"],
               destroyed := false,
               listener := .answerCall
                 { signal := "", to_ := .str "A", callId := .str "call-A-B-100",
                   userId := .str "B", userName := .str "Bob", userAvatar := .null } } ∧
      secondAnswerThenEnd.first.localStream = some [⟨.audio, true, false⟩] ∧
      secondAnswerThenEnd.second.peers =
        [(.str "A",
          { initiator := false, stream := [⟨.audio, true, false⟩, ⟨.video, true, false⟩],
            received := ["offer-2"], destroyed := false,
            listener := .answerCall
              { signal := "", to_ := .str "A", callId := .str "call-A-B-200",
                userId := .str "B", userName := .str "Bob", userAvatar := .null } })] ∧
      secondAnswerThenEnd.second.localStream =
        some [⟨.audio, true, false⟩, ⟨.video, true, false⟩] ∧
      secondAnswerThenEnd.ended.destroyedPeers =
        secondAnswerThenEnd.second.peers.map Prod.snd ∧
      (∀ peer, getPeer secondAnswerThenEnd.first.peers (.str "A") = some peer →
        peer ∉ secondAnswerThenEnd.ended.destroyedPeers) ∧
      secondAnswerThenEnd.ended.stoppedTracks =
        [⟨.audio, true, false⟩, ⟨.video, true, false⟩] ∧
      (secondAnswerThenEnd.first.localStream.getD [] ++
        secondAnswerThenEnd.second.localStream.getD []).length = 3 ∧
      secondAnswerThenEnd.ended.stoppedTracks.length = 2 ∧
      secondAnswerThenEnd.ended.peers = [] ∧
      secondAnswerThenEnd.ended.localStream = none ∧
      secondAnswerThenEnd.ended.isInCall = false ∧
      secondAnswerThenEnd.endEmits =
        [.endCall { callId := .str "call-A-B-200", userId := .str "B",
                    participants := some [.str "B", .str "A"] }] := by
  refine ⟨by decide, by decide, by decide, by decide, by decide, ?_, by decide, by decide,
    by decide, by decide, by decide, by decide, by decide⟩
  intro peer h
  have h1 : getPeer secondAnswerThenEnd.first.peers (.str "A") =
      some { initiator := false, stream := [⟨.audio, true, false⟩], received := ["offer-1"],
             destroyed := false,
             listener := .answerCall
               { signal := "", to_ := .str "A", callId := .str "call-A-B-100",
                 userId := .str "B", userName := .str "Bob", userAvatar := .null } } := by
    decide
  rw [h1] at h
  simp only [Option.some.injEq] at h
  rw [← h]
  decide

/-! ## Video toggle -/

/-- C26 (evaluation at the failing input): in the audio-only call of A to B the
local stream has no video track and `isVideoOff` is true. `toggleVideo`, with a
camera that would deliver a video track, acquires nothing: the client is
unchanged, `isVideoOff` stays true, and the `toggle video` event carries
`isVideoOff: false`. -/
theorem toggle_video_audio_only_call :
    audioOnlyCall.isVideoOff = true ∧
      audioOnlyCall.localStream = some [⟨.audio, true, false⟩] ∧
      (audioOnlyCall.toggleVideo (some [⟨.video, true, false⟩])).1 = audioOnlyCall ∧
      (audioOnlyCall.toggleVideo (some [⟨.video, true, false⟩])).2 =
        [.toggleVideo .null (.str "A") false [.str "A", .str "B"]] := by
  decide

/-! ## Media acquisition failure -/

/-- C27: when media acquisition fails, `startCall` returns false and leaves the
call state idle with an empty peer table, so no peer can ever signal and no
`call user` event is emitted; `answerCall`, which acquires media only for a
pending invite, then likewise leaves the state idle, `incomingCall` cleared,
with an empty peer table, so no `answer call` event is emitted. -/
theorem media_failure_rolls_back (c : Client) (targetUsers : List UserInfo) (isVideo : Bool)
    (chatId : JsVal) (isGroup : Bool) :
    (c.startCall targetUsers isVideo chatId isGroup none).2 = false ∧
    (c.startCall targetUsers isVideo chatId isGroup none).1.isIdle ∧
    (∀ key data,
        (c.startCall targetUsers isVideo chatId isGroup none).1.peerSignal key data = []) ∧
    (c.incomingCall.isSome = true →
        (c.answerCall none).isIdle ∧ ∀ key data, (c.answerCall none).peerSignal key data = []) := by
  refine ⟨rfl, ?_, fun _ _ => rfl, ?_⟩
  · exact ⟨rfl, rfl, rfl, rfl, rfl, rfl, rfl, rfl, rfl, rfl, rfl, rfl, rfl, rfl⟩
  · intro hinvite
    obtain ⟨inc, hinc⟩ := Option.isSome_iff_exists.mp hinvite
    have hans : c.answerCall none = { c.cleanup with incomingCall := none } := by
      simp only [Client.answerCall, hinc]
    rw [hans]
    exact ⟨⟨rfl, rfl, rfl, rfl, rfl, rfl, rfl, rfl, rfl, rfl, rfl, rfl, rfl, rfl⟩,
      fun _ _ => rfl⟩

/-- C27 (witness): B has a pending invite of A and the camera is denied. -/
theorem media_failure_rolls_back_witness :
    (ringingAtB.startCall [userA] true .null false none).2 = false ∧
      (ringingAtB.answerCall none).isIdle :=
  have h := media_failure_rolls_back ringingAtB [userA] true .null false
  ⟨h.1, (h.2.2.2 (by decide)).1⟩

/-! ## Typing callbacks of the message input -/

/-- C28 (evaluation at the failing input): a keystroke, a change of the
`onTypingStop` prop, another keystroke and the expiry of the quiet timer. The
callbacks called are start, stop, stop: the effect cleanup calls `onTypingStop`
without resetting `isTypingRef`, so the second keystroke calls no start and the
timer calls a second stop. -/
theorem typing_callbacks_do_not_alternate :
    MessageInput.init.calls [.keystroke true, .propChange, .keystroke true, .timerExpiry] =
        [.start, .stop, .stop] ∧
      (MessageInput.init.step (.keystroke true)).1.effectCleanup.1.isTyping = true := by
  decide

/-! ## Who is in which room -/

theorem handle_sockets (st : Relay) (sock : Socket) (ev : Event)
    (h1 : ∀ userId now dbOk, ev ≠ .setup userId now dbOk)
    (h2 : ∀ now dbOk, ev ≠ .disconnect now dbOk)
    (h3 : ∀ chatId, ev ≠ .joinChat chatId) (h4 : ∀ chatId, ev ≠ .leaveChat chatId) :
    (handle st sock ev).relay.sockets = st.sockets := by
  cases ev
  case setup userId now dbOk => exact absurd rfl (h1 userId now dbOk)
  case disconnect now dbOk => exact absurd rfl (h2 now dbOk)
  case joinChat chatId => exact absurd rfl (h3 chatId)
  case leaveChat chatId => exact absurd rfl (h4 chatId)
  case newMessage m l =>
    simp only [handle, newMessage]
    split <;> rfl
  case callUser d now =>
    simp only [handle, callUser]
    split
    · split <;> rfl
    · rfl
  all_goals rfl

theorem mem_joinRoom (rooms : List JsVal) (r room : JsVal) :
    room ∈ joinRoom rooms r ↔ room = r ∨ room ∈ rooms := by
  by_cases h : r ∈ rooms
  · simp only [joinRoom, h, if_true]
    constructor
    · exact Or.inr
    · rintro (rfl | h1)
      · exact h
      · exact h1
  · simp only [joinRoom, h, if_false, List.mem_append, List.mem_singleton]
    tauto

theorem mem_leaveRoom (rooms : List JsVal) (r room : JsVal) :
    room ∈ leaveRoom rooms r ↔ room ∈ rooms ∧ room ≠ r := by
  simp [leaveRoom, List.mem_filter]

/-- The rooms of the socket an event arrives on, after the event. -/
theorem roomsOf_after_event (st : Relay) (sid : String) (sock : Socket) (ev : Event)
    (hopen : st.findSocket sid = some sock) (hnd : ∀ now dbOk, ev ≠ .disconnect now dbOk) :
    (step st (.event sid ev)).relay.roomsOf sid = some (roomsAfter sock.rooms ev) := by
  have hid : sock.id = sid := findSocket_id st sid sock hopen
  subst hid
  by_cases h1 : ∃ userId now dbOk, ev = .setup userId now dbOk
  · obtain ⟨userId, now, dbOk, rfl⟩ := h1
    have := findSocket_putSocket_self st sock
      { sock with rooms := joinRoom sock.rooms userId, userId := userId } hopen rfl
    cases dbOk
    · simp only [step, hopen, handle, setup, Relay.roomsOf]
      simp only [Bool.false_eq_true, if_false, this, Option.map_some', roomsAfter]
    · simp only [step, hopen, handle, setup, Relay.roomsOf, if_true]
      show Option.map Socket.rooms (Relay.findSocket (st.putSocket _) sock.id) = _
      rw [this]; rfl
  · by_cases h3 : ∃ chatId, ev = .joinChat chatId
    · obtain ⟨chatId, rfl⟩ := h3
      have := findSocket_putSocket_self st sock
        { sock with rooms := joinRoom sock.rooms chatId } hopen rfl
      simp only [step, hopen, handle, joinChat, Relay.roomsOf, this, Option.map_some', roomsAfter]
    · by_cases h4 : ∃ chatId, ev = .leaveChat chatId
      · obtain ⟨chatId, rfl⟩ := h4
        have := findSocket_putSocket_self st sock
          { sock with rooms := leaveRoom sock.rooms chatId } hopen rfl
        simp only [step, hopen, handle, leaveChat, Relay.roomsOf, this, Option.map_some', roomsAfter]
      · have hs := handle_sockets st sock ev (fun a b c h => h1 ⟨a, b, c, h⟩) hnd
          (fun a h => h3 ⟨a, h⟩) (fun a h => h4 ⟨a, h⟩)
        have hf : (handle st sock ev).relay.findSocket sock.id = some sock := by
          simp only [Relay.findSocket, hs]
          exact hopen
        have hm : roomsAfter sock.rooms ev = sock.rooms := by
          cases ev
          case setup a b c => exact absurd ⟨a, b, c, rfl⟩ h1
          case joinChat a => exact absurd ⟨a, rfl⟩ h3
          case leaveChat a => exact absurd ⟨a, rfl⟩ h4
          all_goals rfl
        simp only [step, hopen, Relay.roomsOf, hf, hm, Option.map_some']

theorem find_filter_ne (l : List Socket) (sid sid1 : String) (hne : sid1 ≠ sid) :
    (l.filter (fun s => decide (s.id ≠ sid))).find? (fun s => decide (s.id = sid1)) =
      l.find? (fun s => decide (s.id = sid1)) := by
  induction l with
  | nil => rfl
  | cons s rest ih =>
      by_cases hs : s.id = sid
      · have hs1 : ¬ s.id = sid1 := fun h => hne (h ▸ hs)
        have hfilter : (s :: rest).filter (fun s => decide (s.id ≠ sid)) =
            rest.filter (fun s => decide (s.id ≠ sid)) := by
          simp [List.filter, hs]
        have hfind : (s :: rest).find? (fun s => decide (s.id = sid1)) =
            rest.find? (fun s => decide (s.id = sid1)) := by
          simp [List.find?, hs1]
        rw [hfilter, hfind]
        exact ih
      · simp only [List.filter, hs, ne_eq, not_false_eq_true, decide_True, List.find?]
        cases decide (s.id = sid1)
        · exact ih
        · rfl

theorem roomsOf_other_socket (st : Relay) (sid : String) (sock : Socket) (ev : Event)
    (hopen : st.findSocket sid = some sock) (sid1 : String) (hne : sid1 ≠ sid) :
    (step st (.event sid ev)).relay.roomsOf sid1 = st.roomsOf sid1 := by
  have hid : sock.id = sid := findSocket_id st sid sock hopen
  subst hid
  have hput : ∀ sock1 : Socket, sock1.id = sock.id →
      (st.putSocket sock1).findSocket sid1 = st.findSocket sid1 :=
    fun sock1 h1 => findSocket_putSocket_ne st sock1 sid1 (by rw [h1]; exact hne)
  simp only [step, hopen, Relay.roomsOf]
  congr 1
  by_cases h1 : ∃ userId now dbOk, ev = .setup userId now dbOk
  · obtain ⟨userId, now, dbOk, rfl⟩ := h1
    cases dbOk
    · exact hput _ rfl
    · exact hput _ rfl
  · by_cases h2 : ∃ now dbOk, ev = .disconnect now dbOk
    · obtain ⟨now, dbOk, rfl⟩ := h2
      have hf := find_filter_ne st.sockets sock.id sid1 hne
      simp only [handle, disconnect]
      split
      · split
        · exact hf
        · exact hf
      · exact hf
    · by_cases h3 : ∃ chatId, ev = .joinChat chatId
      · obtain ⟨chatId, rfl⟩ := h3
        exact hput _ rfl
      · by_cases h4 : ∃ chatId, ev = .leaveChat chatId
        · obtain ⟨chatId, rfl⟩ := h4
          exact hput _ rfl
        · have hs := handle_sockets st sock ev (fun a b c h => h1 ⟨a, b, c, h⟩)
            (fun a b h => h2 ⟨a, b, h⟩) (fun a h => h3 ⟨a, h⟩) (fun a h => h4 ⟨a, h⟩)
          simp only [Relay.findSocket, hs]

/-- C29 (as amended): for every open connection and every event other than
`disconnect` received on it, the rooms of the connection afterwards are its
rooms plus the named room after `setup` or `join chat`, whatever user the
connection is bound to, its rooms minus the named room after `leave chat`, also
when that is its own user room, and its rooms unchanged after any other event;
the rooms of every other connection are unchanged. -/
theorem room_membership_follows_events (st : Relay) (sid : String) (sock : Socket) (ev : Event)
    (hopen : st.findSocket sid = some sock) (hnd : ∀ now dbOk, ev ≠ .disconnect now dbOk) :
    (step st (.event sid ev)).relay.roomsOf sid = some (roomsAfter sock.rooms ev) ∧
    (∀ sid1, sid1 ≠ sid → (step st (.event sid ev)).relay.roomsOf sid1 = st.roomsOf sid1) ∧
    (∀ rooms r room, room ∈ joinRoom rooms r ↔ room = r ∨ room ∈ rooms) ∧
    (∀ rooms r room, room ∈ leaveRoom rooms r ↔ room ∈ rooms ∧ room ≠ r) :=
  ⟨roomsOf_after_event st sid sock ev hopen hnd,
   fun sid1 hne => roomsOf_other_socket st sid sock ev hopen sid1 hne,
   mem_joinRoom, mem_leaveRoom⟩

/-- C29 (witness): the connection c2 of B joins the chat room R. -/
theorem room_membership_follows_events_witness :
    (step oneDeviceBound (.event "c2" (.joinChat (.str "R")))).relay.roomsOf "c2" =
      some [.str "c2", .str "B", .str "R"] :=
  (room_membership_follows_events oneDeviceBound "c2" ⟨"c2", .str "B", [.str "c2", .str "B"]⟩
    (.joinChat (.str "R")) (by decide) (fun _ _ h => by cases h)).1

/-- C29 (counterexample): A is bound on c1 and B on c3; after c1 has sent
`join chat` naming B and c3 `leave chat` naming B, the only member of the room
named B is c1, which is bound to A, and an event addressed to B is delivered to
c1 and not to c3. -/
theorem user_room_membership_counterexample :
    roomsCrossed.connectionsOf (.str "B") = [⟨"c3", .str "B", [.str "c3"]⟩] ∧
      roomsCrossed.members (.str "B") =
        [⟨"c1", .str "A", [.str "c1", .str "A", .str "B"]⟩] ∧
      roomsCrossed.receivers ⟨.toRoom (.str "B"), .userOnline (.str "A")⟩ =
        [⟨"c1", .str "A", [.str "c1", .str "A", .str "B"]⟩] := by
  decide

/-! ## Who may send a message -/

/-- C30 (as amended): for a `new message` event the relay looks neither at the
user the emitting connection is bound to nor at whether the named sender is a
user of the chat: the emissions are the same on every connection with the same
socket id in every relay state, and when the named sender is not among the chat
users, every chat user is sent `message received`. -/
theorem message_sender_unchecked (st : Relay) (sock : Socket) (messageData : Message)
    (lookup : ChatLookup) :
    (∀ st1 sock1, sock1.id = sock.id →
        (newMessage st1 sock1 messageData lookup).emits =
          (newMessage st sock messageData lookup).emits) ∧
    (∀ users s, lookup = .found (some users) → messageData.sender = .str s → s ∉ users →
        (newMessage st sock messageData lookup).emits =
          users.map (fun userId =>
            ⟨.socketTo sock.id (.str userId), .messageReceived messageData⟩)) := by
  constructor
  · intro st1 sock1 hid
    unfold newMessage
    split
    · simp [hid]
    · rfl
  · intro users s hl hs hnot
    subst hl
    rw [newMessage_emits st sock messageData users s hs]
    congr 1
    rw [List.filter_eq_self]
    intro u hu
    have : u ≠ s := fun h => hnot (h ▸ hu)
    simpa using this

/-- C30 (witness): on the connection c3 of B, a message naming the sender Z,
who is not a user of the chat of A and B, goes to A and B. -/
theorem message_sender_unchecked_witness :
    (newMessage senderInOtherRoom ⟨"c3", .str "B", [.str "c3", .str "B"]⟩
        { chat := .str "X", sender := .str "Z", body := "hello" }
        (.found (some ["A", "B"]))).emits =
      ["A", "B"].map (fun userId =>
        ⟨.socketTo "c3" (.str userId),
         .messageReceived { chat := .str "X", sender := .str "Z", body := "hello" }⟩) :=
  (message_sender_unchecked senderInOtherRoom ⟨"c3", .str "B", [.str "c3", .str "B"]⟩
    { chat := .str "X", sender := .str "Z", body := "hello" } (.found (some ["A", "B"]))).2
    ["A", "B"] "Z" rfl rfl (by decide)

/-- C30 (counterexample): the connection c3 is bound to B and sends a
`new message` that names A as its sender, for the chat of A and B; the relay
emits `message received` to the room of B. -/
theorem message_from_other_user_counterexample :
    senderInOtherRoom.findSocket "c3" = some ⟨"c3", .str "B", [.str "c3", .str "B"]⟩ ∧
      (step senderInOtherRoom
        (.event "c3" (.newMessage messageOfA (.found (some ["A", "B"]))))).emits =
        [⟨.socketTo "c3" (.str "B"), .messageReceived messageOfA⟩] := by
  decide

end ChatApp
